import Mathlib

/-!
# Verification of the pliro_server specification against its source

A shallow embedding of the data model and the service/route operations of the
pliro_server backend (FastAPI + SQLAlchemy + OpenAI structured calls), together
with theorems settling the frozen claims about it.

Conventions of the embedding:
* Database tables become Lean lists of rows; `session.commit()` points become
  the places where the returned store value is taken as the new state.
* External collaborators (object storage, the OpenAI chat client, presigned
  URL generation, the DB id sequence) become explicit function or counter
  parameters; an `Except.error` outcome models the awaited call raising.
* Python `json.loads` is modelled by an executable recursive-descent parser
  `jsonLoads` over a `Json` value type; `json.loads` raising `JSONDecodeError`
  corresponds to `jsonLoads` returning `none`.
* `HTTPException(status_code=s, detail=d)` becomes `HTTPException.mk s d`;
  a route returning normally is `Except.ok`, raising is `Except.error`.
-/

namespace Pliro

/-- JSON values, as produced by `json.loads`. Number literals keep their
lexeme so that no floating-point semantics is needed. -/
inductive Json where
  | null : Json
  | bool (b : Bool) : Json
  | num (lexeme : String) : Json
  | str (s : String) : Json
  | arr (elems : List Json) : Json
  | obj (fields : List (String × Json)) : Json

/-- JSON whitespace characters accepted between tokens by `json.loads`. -/
def isJsonWs (c : Char) : Bool :=
  c = ' ' || c = '\t' || c = '\n' || c = '\r'

/-- Skip leading JSON whitespace. -/
def skipWs : List Char → List Char
  | [] => []
  | c :: cs => if isJsonWs c then skipWs cs else c :: cs

/-- Hexadecimal digit value, for `\uXXXX` escapes. -/
def hexVal (c : Char) : Option Nat :=
  if '0' ≤ c ∧ c ≤ '9' then some (c.toNat - '0'.toNat)
  else if 'a' ≤ c ∧ c ≤ 'f' then some (c.toNat - 'a'.toNat + 10)
  else if 'A' ≤ c ∧ c ≤ 'F' then some (c.toNat - 'A'.toNat + 10)
  else none

/-- Parse the body of a JSON string literal (after the opening quote),
returning the decoded string and the remaining input. -/
def parseJStr (fuel : Nat) (acc : List Char) (cs : List Char) :
    Option (String × List Char) :=
  match fuel with
  | 0 => none
  | fuel + 1 =>
    match cs with
    | [] => none
    | '"' :: rest => some (String.mk acc.reverse, rest)
    | '\\' :: e :: rest =>
      match e with
      | '"' => parseJStr fuel ('"' :: acc) rest
      | '\\' => parseJStr fuel ('\\' :: acc) rest
      | '/' => parseJStr fuel ('/' :: acc) rest
      | 'b' => parseJStr fuel ('\x08' :: acc) rest
      | 'f' => parseJStr fuel ('\x0c' :: acc) rest
      | 'n' => parseJStr fuel ('\n' :: acc) rest
      | 'r' => parseJStr fuel ('\r' :: acc) rest
      | 't' => parseJStr fuel ('\t' :: acc) rest
      | 'u' =>
        match rest with
        | h1 :: h2 :: h3 :: h4 :: rest' =>
          match hexVal h1, hexVal h2, hexVal h3, hexVal h4 with
          | some a, some b, some c, some d =>
            parseJStr fuel (Char.ofNat (((a * 16 + b) * 16 + c) * 16 + d) :: acc) rest'
          | _, _, _, _ => none
        | _ => none
      | _ => none
    | c :: rest =>
      if c.toNat < 0x20 then none else parseJStr fuel (c :: acc) rest

/-- Consume one or more decimal digits; returns them and the rest. -/
def takeDigits : List Char → List Char × List Char
  | [] => ([], [])
  | c :: cs =>
    if c.isDigit then
      let (ds, rest) := takeDigits cs
      (c :: ds, rest)
    else ([], c :: cs)

/-- Parse a JSON number token starting at `cs` (first char is `-` or a digit),
returning its lexeme and the rest. Follows the json number grammar. -/
def parseJNum (cs : List Char) : Option (String × List Char) :=
  let (sign, cs₁) :=
    match cs with
    | '-' :: rest => (['-'], rest)
    | rest => (([] : List Char), rest)
  match cs₁ with
  | [] => none
  | c :: _ =>
    if ¬ c.isDigit then none
    else
      let (intPart, cs₂) := takeDigits cs₁
      -- json forbids leading zeros like 00 or 01
      let okInt : Bool :=
        match intPart with
        | ['0'] => true
        | '0' :: _ :: _ => false
        | _ => true
      if ¬ okInt then none
      else
        let (fracPart, cs₃) :=
          match cs₂ with
          | '.' :: rest =>
            let (ds, r) := takeDigits rest
            if ds.isEmpty then (none, cs₂) else (some ('.' :: ds), r)
          | _ => (none, cs₂)
        match fracPart with
        | none =>
          match cs₂ with
          | '.' :: _ => none
          | _ =>
            let (expPart, cs₄) := parseJExp cs₂
            match expPart with
            | none =>
              match cs₂ with
              | 'e' :: _ => none
              | 'E' :: _ => none
              | _ => some (String.mk (sign ++ intPart), cs₂)
            | some es => some (String.mk (sign ++ intPart ++ es), cs₄)
        | some fs =>
          let (expPart, cs₄) := parseJExp cs₃
          match expPart with
          | none =>
            match cs₃ with
            | 'e' :: _ => none
            | 'E' :: _ => none
            | _ => some (String.mk (sign ++ intPart ++ fs), cs₃)
          | some es => some (String.mk (sign ++ intPart ++ fs ++ es), cs₄)
where
  /-- Parse an optional exponent part `[eE][+-]?digits`. -/
  parseJExp : List Char → Option (List Char) × List Char
  | e :: rest =>
    if e = 'e' ∨ e = 'E' then
      let (sgn, rest₁) :=
        match rest with
        | '+' :: r => (['+'], r)
        | '-' :: r => (['-'], r)
        | r => (([] : List Char), r)
      let (ds, rest₂) := takeDigits rest₁
      if ds.isEmpty then (none, e :: rest)
      else (some (e :: sgn ++ ds), rest₂)
    else (none, e :: rest)
  | [] => (none, [])

/-- Check that `cs` starts with `pre`; return the remainder. -/
def expectChars (pre : List Char) (cs : List Char) : Option (List Char) :=
  match pre, cs with
  | [], rest => some rest
  | p :: ps, c :: rest => if p = c then expectChars ps rest else none
  | _ :: _, [] => none

mutual

/-- Parse one JSON value (fuelled recursive descent modelling `json.loads`). -/
def parseVal : Nat → List Char → Option (Json × List Char)
  | 0, _ => none
  | fuel + 1, cs =>
    match skipWs cs with
    | [] => none
    | c :: rest =>
      if c = '{' then
        match skipWs rest with
        | '}' :: rest' => some (Json.obj [], rest')
        | rest' => parseMembers fuel rest' []
      else if c = '[' then
        match skipWs rest with
        | ']' :: rest' => some (Json.arr [], rest')
        | rest' => parseElems fuel rest' []
      else if c = '"' then
        match parseJStr (rest.length + 1) [] rest with
        | some (s, rest') => some (Json.str s, rest')
        | none => none
      else if c = 't' then
        match expectChars ['r', 'u', 'e'] rest with
        | some rest' => some (Json.bool true, rest')
        | none => none
      else if c = 'f' then
        match expectChars ['a', 'l', 's', 'e'] rest with
        | some rest' => some (Json.bool false, rest')
        | none => none
      else if c = 'n' then
        match expectChars ['u', 'l', 'l'] rest with
        | some rest' => some (Json.null, rest')
        | none => none
      else if c = '-' ∨ c.isDigit then
        match parseJNum (c :: rest) with
        | some (lex, rest') => some (Json.num lex, rest')
        | none => none
      else none

/-- Parse the elements of a JSON array after `[` (at least one element). -/
def parseElems : Nat → List Char → List Json → Option (Json × List Char)
  | 0, _, _ => none
  | fuel + 1, cs, acc =>
    match parseVal fuel cs with
    | none => none
    | some (v, rest) =>
      match skipWs rest with
      | ',' :: rest' => parseElems fuel rest' (v :: acc)
      | ']' :: rest' => some (Json.arr (v :: acc).reverse, rest')
      | _ => none

/-- Parse the members of a JSON object after `{` (at least one member). -/
def parseMembers : Nat → List Char → List (String × Json) →
    Option (Json × List Char)
  | 0, _, _ => none
  | fuel + 1, cs, acc =>
    match skipWs cs with
    | '"' :: rest =>
      match parseJStr (rest.length + 1) [] rest with
      | none => none
      | some (k, rest₁) =>
        match skipWs rest₁ with
        | ':' :: rest₂ =>
          match parseVal fuel rest₂ with
          | none => none
          | some (v, rest₃) =>
            match skipWs rest₃ with
            | ',' :: rest₄ => parseMembers fuel rest₄ ((k, v) :: acc)
            | '}' :: rest₄ => some (Json.obj ((k, v) :: acc).reverse, rest₄)
            | _ => none
        | _ => none
    | _ => none

end

/-- Whole-input parse over the character list: exactly one JSON value, then
only whitespace. -/
def jsonLoadsList (fuel : Nat) (cs : List Char) : Option Json :=
  match parseVal fuel cs with
  | some (v, rest) =>
    match skipWs rest with
    | [] => some v
    | _ :: _ => none
  | none => none

/-- Model of Python `json.loads`: parse the whole string as one JSON value;
`none` models `json.loads` raising `JSONDecodeError`. -/
def jsonLoads (s : String) : Option Json :=
  jsonLoadsList (s.length * 2 + 2) s.data

mutual

/-- Model of Python `json.dumps` with its default separators. Escaping inside
string values is elided; no claim inspects dumped output. -/
def jsonDumps : Json → String
  | Json.null => "null"
  | Json.bool true => "true"
  | Json.bool false => "false"
  | Json.num lexeme => lexeme
  | Json.str s => "\"" ++ s ++ "\""
  | Json.arr elems => "[" ++ jsonDumpsElems elems ++ "]"
  | Json.obj fields => "\x7b" ++ jsonDumpsFields fields ++ "\x7d"

/-- Comma-separated dump of array elements. -/
def jsonDumpsElems : List Json → String
  | [] => ""
  | [x] => jsonDumps x
  | x :: y :: rest => jsonDumps x ++ ", " ++ jsonDumpsElems (y :: rest)

/-- Comma-separated dump of object members. -/
def jsonDumpsFields : List (String × Json) → String
  | [] => ""
  | [(k, v)] => "\"" ++ k ++ "\": " ++ jsonDumps v
  | (k, v) :: kv :: rest =>
    "\"" ++ k ++ "\": " ++ jsonDumps v ++ ", " ++ jsonDumpsFields (kv :: rest)

end

mutual

/-- Python `repr` of the object `json.loads` would produce for this value
(used when such an object is interpolated into an f-string). -/
def pyReprJson : Json → String
  | Json.null => "None"
  | Json.bool true => "True"
  | Json.bool false => "False"
  | Json.num lexeme => lexeme
  | Json.str s => "\x27" ++ s ++ "\x27"
  | Json.arr elems => "[" ++ pyReprJsonElems elems ++ "]"
  | Json.obj fields => "\x7b" ++ pyReprJsonFields fields ++ "\x7d"

/-- Comma-separated `repr` of list elements. -/
def pyReprJsonElems : List Json → String
  | [] => ""
  | [x] => pyReprJson x
  | x :: y :: rest => pyReprJson x ++ ", " ++ pyReprJsonElems (y :: rest)

/-- Comma-separated `repr` of dict members. -/
def pyReprJsonFields : List (String × Json) → String
  | [] => ""
  | [(k, v)] => "\x27" ++ k ++ "\x27: " ++ pyReprJson v
  | (k, v) :: kv :: rest =>
    "\x27" ++ k ++ "\x27: " ++ pyReprJson v ++ ", " ++ pyReprJsonFields (kv :: rest)

end

/-- Python `str` of a parsed-JSON object: strings print bare, every other
value prints as its `repr`. -/
def pyStrJson : Json → String
  | Json.str s => s
  | v => pyReprJson v

/-- Python `repr` of an optional string (`None` or a quoted string). -/
def pyReprOptStr : Option String → String
  | none => "None"
  | some s => "\x27" ++ s ++ "\x27"

/-- Python `repr`/`str` of a list of strings. -/
def pyReprListStr (xs : List String) : String :=
  "[" ++ String.intercalate ", " (xs.map (fun s => "\x27" ++ s ++ "\x27")) ++ "]"

/-- Python `str` of an optional list of strings (a nullable ARRAY column). -/
def pyStrOptListStr : Option (List String) → String
  | none => "None"
  | some xs => pyReprListStr xs

/-- Python `str` of an optional plain string column. -/
def pyStrOptStr : Option String → String
  | none => "None"
  | some s => s

/-- Python `str` of a bool (`True`/`False`). -/
def pyStrBool : Bool → String
  | true => "True"
  | false => "False"

/-- `fastapi.HTTPException(status_code, detail)`. -/
structure HTTPException where
  status : Nat
  detail : String
deriving DecidableEq, Repr

/-! ## Data model (app/models) -/

/-- A row of the `revisions` table (app/models/standard_model.py, `Revision`). -/
structure Revision where
  id : Nat
  standard_id : Nat
  revision_number : String
  revision_date : String
  revision_description : String
deriving DecidableEq, Repr

/-- A row of the `standards` table (app/models/standard_model.py, `Standard`),
with its owned `revisions` collection inlined (cascade="all, delete-orphan":
the collection has no lifecycle independent of the row). Nullable columns are
`Option`; the `Date` columns keep their ISO string form, which is all the
claims observe. -/
structure Standard where
  id : Nat
  name : String
  description : Option String := none
  issuingOrganization : Option String := none
  standardNumber : Option String := none
  version : Option String := none
  standardOwner : Option String := none
  standardWebsite : Option String := none
  issueDate : Option String := none
  effectiveDate : Option String := none
  generalCategories : Option (List String) := none
  itCategories : Option (List String) := none
  additionalNotes : Option String := none
  regions : Option (List String) := none
  countries : Option (List String) := none
  file_path : Option String := none
  approval_status : String := "approved"
  revisions : List Revision := []
deriving DecidableEq, Repr

/-- A row of the `projects` table (app/models/project_model.py,
`ProjectModel`). The JSONB columns hold `Json` values. -/
structure ProjectModel where
  id : Nat
  name : String
  use : String
  description : String
  product_type : String
  product_category : String
  dimensions : Option String := none
  weight : Option String := none
  regions : Option (List String) := none
  countries : Option (List String) := none
  technical_details : Option Json := none
  standard_mapping : Option Json := none
  multi_variant : Bool := false
  pre_certified_components : Bool := false
  user_id : Nat

/-- The `standards` table. -/
abbrev StdStore := List Standard

/-- The `projects` table. -/
abbrev ProjStore := List ProjectModel

/-! ## External collaborators -/

/-- Embedding of `call_openai_structured` (app/utils/openai_utils.py): the
external chat call either returns the schema-conforming message content or
raises; the wrapper catches any exception `e` and returns the string
`"Error: {str(e)}"` instead of raising. `oai` models the outcome of the
external call for a given prompt. -/
def call_openai_structured (oai : String → Except String String)
    (prompt : String) : String :=
  match oai prompt with
  | Except.ok content => content
  | Except.error e => "Error: " ++ e

/-- Embedding of `delete_file_from_do` (app/utils/file_storage.py): the
S3 delete either succeeds or raises; every exception is caught, logged and
turned into `false`, so the adapter itself never raises. -/
def delete_file_from_do (s3Delete : String → Except String Unit)
    (file_path : String) : Bool :=
  match s3Delete file_path with
  | Except.ok _ => true
  | Except.error _ => false

/-! ## Standard catalog reads -/

/-- Embedding of `get_all_standards` (app/services/standard_service.py):
select with the optional `approval_status` filter, offset `skip`, limit
`limit`; each returned row whose `file_path` is truthy gets that field
replaced by a presigned URL. `presign` models `generate_presigned_url`;
validation into `StandardBase` is the identity on this representation. -/
def get_all_standards (presign : String → String) (store : StdStore)
    (skip : Nat) (limit : Nat) (approval_status : Option String) :
    List Standard :=
  let filtered : StdStore :=
    match approval_status with
    | some st => store.filter (fun s => s.approval_status = st)
    | none => store
  ((filtered.drop skip).take limit).map (fun (s : Standard) =>
    match s.file_path with
    | some p => if p.isEmpty then s else { s with file_path := some (presign p) }
    | none => s)

/-- Embedding of `get_standard_by_id` (app/services/standard_service.py):
first row with the given id, revisions eagerly loaded. (The transient
`presigned_url` attribute it sets is not a column and no claim reads it.) -/
def get_standard_by_id (standard_id : Nat) (store : StdStore) :
    Option Standard :=
  store.find? (fun s => s.id = standard_id)

/-! ## Project service (app/services/project_service.py) -/

/-- Client payload of `POST /projects` (`ProjectCreateModel` in
app/routes/project_routes.py). It inherits every `ProjectBase` field —
including `standard_mapping` — so a client may supply all of them, and
`model_dump()` hands them all to the service. -/
structure ProjectCreateModel where
  name : String
  use : String
  description : String
  product_type : String
  product_category : String
  user_id : Nat
  dimensions : Option String := none
  weight : Option String := none
  regions : Option (List String) := none
  countries : Option (List String) := none
  technical_details : Option Json := none
  multi_variant : Option Bool := some false
  pre_certified_components : Option Bool := some false
  standard_mapping : Option Json := none

/-- Lookup used by every project operation (`get_project_by_id`). -/
def get_project_by_id (project_id : Nat) (store : ProjStore) :
    Option ProjectModel :=
  store.find? (fun p => p.id = project_id)

/-- Embedding of `create_project` (app/services/project_service.py): drop the
`None` entries of the payload dict, build `ProjectModel(**filtered_data)`
(absent Bool fields fall back to the column default `False`, absent nullable
fields stay NULL), add and commit. `newId` models the id assigned by the
database sequence. -/
def create_project (payload : ProjectCreateModel) (newId : Nat)
    (store : ProjStore) : ProjectModel × ProjStore :=
  let p : ProjectModel :=
    { id := newId
      name := payload.name
      use := payload.use
      description := payload.description
      product_type := payload.product_type
      product_category := payload.product_category
      dimensions := payload.dimensions
      weight := payload.weight
      regions := payload.regions
      countries := payload.countries
      technical_details := payload.technical_details
      standard_mapping := payload.standard_mapping
      multi_variant := payload.multi_variant.getD false
      pre_certified_components := payload.pre_certified_components.getD false
      user_id := payload.user_id }
  (p, store ++ [p])

/-- Client payload of `PUT /projects/{id}` (`ProjectUpdateModel`): every
field optional, and `model_dump(exclude_unset=True)` forwards only the fields
the client actually sent. The outer `Option` is unset-vs-sent; for nullable
columns the inner `Option` is the sent value (possibly null). The model has
no `standard_mapping` field and no `user_id` field. (Explicit nulls for
non-nullable columns would only fail at commit and are outside the claims.) -/
structure ProjectUpdateModel where
  name : Option String := none
  use : Option String := none
  description : Option String := none
  dimensions : Option (Option String) := none
  weight : Option (Option String) := none
  regions : Option (Option (List String)) := none
  countries : Option (Option (List String)) := none
  technical_details : Option (Option Json) := none
  multi_variant : Option Bool := none
  pre_certified_components : Option Bool := none
  product_type : Option String := none
  product_category : Option String := none

/-- Embedding of `update_project`: fetch, `none` if absent; otherwise
`setattr` each sent key (every key of the update model is a `ProjectModel`
attribute, so the `hasattr` guard always passes) and commit. -/
def update_project (project_id : Nat) (data : ProjectUpdateModel)
    (store : ProjStore) : Option ProjectModel × ProjStore :=
  match get_project_by_id project_id store with
  | none => (none, store)
  | some project =>
    let updated : ProjectModel := { project with
      name := data.name.getD project.name
      use := data.use.getD project.use
      description := data.description.getD project.description
      dimensions := data.dimensions.getD project.dimensions
      weight := data.weight.getD project.weight
      regions := data.regions.getD project.regions
      countries := data.countries.getD project.countries
      technical_details := data.technical_details.getD project.technical_details
      multi_variant := data.multi_variant.getD project.multi_variant
      pre_certified_components :=
        data.pre_certified_components.getD project.pre_certified_components
      product_type := data.product_type.getD project.product_type
      product_category := data.product_category.getD project.product_category }
    (some updated,
     store.map (fun p => if p.id = project_id then updated else p))

/-! ## The standard-mapping prompt -/

/-- One record of the `modified_standards` catalog payload built by
`map_project_standard`. -/
structure StdPromptRecord where
  name : String
  description : Option String
  regions : Option (List String)
deriving DecidableEq, Repr

/-- `{"name": s.name, "description": s.description, "regions": s.regions}`. -/
def projRecord (s : Standard) : StdPromptRecord :=
  { name := s.name, description := s.description, regions := s.regions }

/-- Python `repr` of one `modified_standards` dict. -/
def pyReprStdPromptRecord (r : StdPromptRecord) : String :=
  "\x7b\x27name\x27: \x27" ++ r.name ++ "\x27, \x27description\x27: " ++
    pyReprOptStr r.description ++ ", \x27regions\x27: " ++
    pyStrOptListStr r.regions ++ "\x7d"

/-- Python `str` of the `modified_standards` list, as interpolated into the
prompt f-string. -/
def pyReprStdPromptRecords (rs : List StdPromptRecord) : String :=
  "[" ++ String.intercalate ", " (rs.map pyReprStdPromptRecord) ++ "]"

/-- The catalog payload `modified_standards` that `map_project_standard`
embeds in its prompt: the rows returned by `get_all_standards` **with its
default pagination** (skip 0, limit 100, no filter), projected down to
name/description/regions. -/
def promptCatalog (presign : String → String) (stdStore : StdStore) :
    List StdPromptRecord :=
  (get_all_standards presign stdStore 0 100 none).map projRecord

/-- `json.dumps(project.technical_details) if isinstance(..., dict) else
str(project.technical_details)`; a NULL column prints as `None`. -/
def techDetailsStr : Option Json → String
  | some (Json.obj fields) => jsonDumps (Json.obj fields)
  | some v => pyStrJson v
  | none => "None"

/-- The part of the mapping prompt before the first `{modified_standards}`
interpolation: instructions, the project attributes and the serialized
technical details. -/
def mapPromptPrefix (project : ProjectModel) : String :=
  "\n" ++
  "       You are an expert standard mapper.You will be given a product that is about to be launched, and your task is to map the product to all appropriate standards based on the following:\n" ++
  "        * Product details (general, technical, and regional)\n" ++
  "        * Technical specifications\n" ++
  "        * Known global standards (both from my provided repository and your own knowledge)\n" ++
  "        Your priority is to:\n" ++
  "        1. First, analyze and recommend standards from the provided repository.\n" ++
  "        2. Then, you must go beyond and recommend additional standards from your own knowledge or external sources — this is mandatory, even if you feel the repo standards already cover the basics.\n" ++
  "        3. Ensure each recommendation is well-reasoned, especially for external standards, and technically aligned with the product details.\n" ++
  "        \n" ++
  "        Product General Details:\n" ++
  "        Product Name: " ++ project.name ++ "\n" ++
  "        Product Type: " ++ project.product_type ++ "\n" ++
  "        Product Category: " ++ project.product_category ++ "\n" ++
  "        Intended Use: " ++ project.use ++ "\n" ++
  "        Dimensions: " ++ pyStrOptStr project.dimensions ++ "\n" ++
  "        Weight: " ++ pyStrOptStr project.weight ++ "\n" ++
  "        Description: " ++ project.description ++ "\n" ++
  "        Regions to launch: " ++ pyStrOptListStr project.regions ++ "\n" ++
  "        Countries to launch: " ++ pyStrOptListStr project.countries ++ "\n" ++
  "        Multiple Variants: " ++ pyStrBool project.multi_variant ++ "\n" ++
  "        Uses Pre-certified Components: " ++ pyStrBool project.pre_certified_components ++ "\n" ++
  "        \n" ++
  "        Technical Details (Prioritize these for mappings):\n" ++
  "        " ++ techDetailsStr project.technical_details ++ "\n" ++
  "        \n" ++
  "        Standards Repository (for in_repo: true):\n" ++
  "        "

/-- The part of the mapping prompt between its two `{modified_standards}`
interpolations: the output-format example and the first notes. -/
def mapPromptMiddle : String :=
  "\n" ++
  "        \n" ++
  "        Output format (JSON):\n" ++
  "            \"mappings\": [\n" ++
  "                \x7b\n" ++
  "                    \"standard_name\": \"Standard Name\",\n" ++
  "                    \"relevance_score\": 0.9,\n" ++
  "                    \"technical_requirements_matched\": [\"Requirement 1\", \"Requirement 2\"],\n" ++
  "                    \"reason_for_mapping\": \"Reason for mapping\",\n" ++
  "                    \"in_repo\": true\n" ++
  "                \x7d,\n" ++
  "                \x7b\n" ++
  "                    \"standard_name\": \"External Standard Name\",\n" ++
  "                    \"relevance_score\": 0.85,\n" ++
  "                    \"technical_requirements_matched\": [\"Requirement A\", \"Requirement B\"],\n" ++
  "                    \"reason_for_mapping\": \"Mapped based on external expertise and region-specific compliance needs.\",\n" ++
  "                    \"in_repo\": false\n" ++
  "                \x7d\n" ++
  "            ],\n" ++
  "            \"summary\": \"Summary of the overall mapping decisions.\",\n" ++
  "            \"confidence_score\": 0.9\n" ++
  "        \n" ++
  "        Important Notes:\n" ++
  "        * Always recommend external standards (not in the repo) — this is mandatory.\n" ++
  "        * For each standard, provide:\n" ++
  "            * Relevance score (out of 1.0)\n" ++
  "            * Matched technical requirements\n" ++
  "            * Reason for inclusion (specific and technical)\n" ++
  "        * For \"in_repo\":\n" ++
  "            * true → if the standard comes from "

/-- The part of the mapping prompt after its second `{modified_standards}`
interpolation. -/
def mapPromptSuffix : String :=
  "\n" ++
  "            * false → if it comes from your knowledge or external trusted sources\n" ++
  "        * The summary should clearly explain:\n" ++
  "            * Overall mapping approach\n" ++
  "            * Priority standards\n" ++
  "            * Regional compliance focus\n" ++
  "        * Focus on technical accuracy and practical applicability.\n" ++
  "    "

/-- The mapping prompt f-string of `map_project_standard`
(app/services/project_service.py): the template with the project attributes
and the `{modified_standards}` catalog payload (interpolated twice)
substituted in. Literal braces of the template are the rendered form of the
doubled-brace escapes in the source. -/
def mapStandardPrompt (project : ProjectModel)
    (modified_standards : List StdPromptRecord) : String :=
  mapPromptPrefix project ++
    (pyReprStdPromptRecords modified_standards ++
      (mapPromptMiddle ++
        (pyReprStdPromptRecords modified_standards ++ mapPromptSuffix)))

/-- The full prompt `map_project_standard` sends for a given project. -/
def mapPromptFor (presign : String → String) (stdStore : StdStore)
    (project : ProjectModel) : String :=
  mapStandardPrompt project (promptCatalog presign stdStore)

/-- Stand-in for `str(e)` of the `json.JSONDecodeError` raised by
`json.loads` on this input; only the prefix of the surrounding detail
message is specified. -/
def jsonDecodeErrMsg (_ : String) : String :=
  "Expecting value: line 1 column 1 (char 0)"

/-- Embedding of `map_project_standard` (app/services/project_service.py).
The result is the route-visible outcome together with the committed
`projects` table: `.ok none` = project not found (the route answers 404);
`.error` = `HTTPException(500, "Failed to map standards: ...")` raised
before any write; `.ok (some json)` = payload parsed and committed onto
`standard_mapping`. -/
def map_project_standard (oai : String → Except String String)
    (presign : String → String) (project_id : Nat) (stdStore : StdStore)
    (store : ProjStore) : Except HTTPException (Option String) × ProjStore :=
  match get_project_by_id project_id store with
  | none => (Except.ok none, store)
  | some project =>
    let prompt := mapPromptFor presign stdStore project
    let result_json_str := call_openai_structured oai prompt
    match jsonLoads result_json_str with
    | none =>
      (Except.error
        { status := 500
          detail := "Failed to map standards: " ++ jsonDecodeErrMsg result_json_str },
       store)
    | some mapped_data =>
      (Except.ok (some result_json_str),
       store.map (fun p =>
         if p.id = project_id then { p with standard_mapping := some mapped_data }
         else p))

/-- Embedding of the `POST /projects` route `create_new_project`
(app/routes/project_routes.py): create and commit the project, trigger
`map_project_standard` on the new id inside `try/except HTTPException`
(a mapping failure is printed and swallowed), re-fetch the row and return it
with status 201 (`Except.ok`). -/
def create_new_project (oai : String → Except String String)
    (presign : String → String) (payload : ProjectCreateModel) (newId : Nat)
    (stdStore : StdStore) (store : ProjStore) :
    Except HTTPException ProjectModel × ProjStore :=
  let created := (create_project payload newId store).1
  let store₁ := (create_project payload newId store).2
  let store₂ :=
    match map_project_standard oai presign created.id stdStore store₁ with
    | (Except.ok _, s) => s
    | (Except.error _, s) => s
  match get_project_by_id created.id store₂ with
  | none =>
    (Except.error { status := 500, detail := "Failed to retrieve created project." },
     store₂)
  | some final => (Except.ok final, store₂)

/-! ## Revision reconciliation (app/services/standard_service.py) -/

/-- One entry of a `revisions` payload (`RevisionBase` in
app/types/standard_types.py): `id` is null for new entries. -/
structure RevisionPayload where
  id : Option Nat
  revision_number : String
  revision_date : String
  revision_description : String
deriving DecidableEq, Repr

/-- The `for k, v in revision_dict.items(): if k != 'id' and hasattr(...):
setattr(...)` loop: every non-id payload key is a `Revision` attribute, so
all three data fields are overwritten and the id is kept. -/
def applyRevisionFields (e : RevisionPayload) (r : Revision) : Revision :=
  { r with
    revision_number := e.revision_number
    revision_date := e.revision_date
    revision_description := e.revision_description }

/-- A reference held in `new_revisions` while `update_standard_revisions`
runs: either an alias of a pre-existing (and possibly further mutated in
place) `Revision` object, identified by its id, or a freshly constructed
one. -/
inductive RevRef where
  | existing (id : Nat)
  | fresh (rev : Revision)
deriving DecidableEq, Repr

/-- Loop state of the reconciliation: the current field values of the
pre-existing revision objects (they are mutated in place, so aliases in
`refs` observe later updates), the accumulated `new_revisions` references,
and the database id sequence for inserts. -/
structure ReconcileState where
  updates : List Revision
  refs : List RevRef
  nextId : Nat

/-- One iteration of the `for revision_data in revisions_data` loop. A
payload id is recognized when it is truthy (Python `if revision_id`, so id 0
counts as absent) and present in the `existing_revisions` map built from the
collection before the loop. -/
def reconcileStep (existingIds : List Nat) (standard_id : Nat)
    (st : ReconcileState) (e : RevisionPayload) : ReconcileState :=
  match e.id with
  | some rid =>
    if rid ≠ 0 ∧ rid ∈ existingIds then
      { st with
        updates := st.updates.map (fun r =>
          if r.id = rid then applyRevisionFields e r else r)
        refs := st.refs ++ [RevRef.existing rid] }
    else
      { st with
        refs := st.refs ++ [RevRef.fresh
          ⟨st.nextId, standard_id, e.revision_number, e.revision_date,
            e.revision_description⟩]
        nextId := st.nextId + 1 }
  | none =>
    { st with
      refs := st.refs ++ [RevRef.fresh
        ⟨st.nextId, standard_id, e.revision_number, e.revision_date,
          e.revision_description⟩]
      nextId := st.nextId + 1 }

/-- Dereference a `new_revisions` entry against the final state of the
mutated pre-existing objects. The default is unreachable: an
`RevRef.existing` id always occurs in `updates`. -/
def resolveRef (updates : List Revision) : RevRef → Revision
  | RevRef.existing rid =>
    (updates.find? (fun r => r.id = rid)).getD ⟨0, 0, "", "", ""⟩
  | RevRef.fresh rev => rev

/-- Embedding of `update_standard_revisions`
(app/services/standard_service.py): build the id lookup of the existing
collection, run the loop, and replace `standard.revisions` with the
collected list (SQLAlchemy's delete-orphan cascade drops every pre-existing
revision that no longer appears). Returns the standard with the replaced
collection and the next value of the id sequence. (The Python
`existing_revisions` dict would keep the last row per id; rows of one
standard have distinct primary keys, matching `find?` here.) -/
def update_standard_revisions (standard : Standard)
    (revisions_data : List RevisionPayload) (nextId : Nat) : Standard × Nat :=
  let existingIds := standard.revisions.map (fun r => r.id)
  let final := revisions_data.foldl (reconcileStep existingIds standard.id)
    { updates := standard.revisions, refs := [], nextId := nextId }
  ({ standard with revisions := final.refs.map (resolveRef final.updates) },
   final.nextId)

/-- The collection that §4.3 of the spec describes, written from the spec's
words as a reference for the C4 statement: entry by entry, a recognized id
yields the matching existing revision updated to the entry's fields with its
id kept; anything else yields a fresh insert; existing revisions absent from
the payload simply do not appear (replace-the-collection). -/
def reconciledSpec (standard : Standard) :
    List RevisionPayload → Nat → List Revision
  | [], _ => []
  | e :: es, n =>
    match e.id.bind (fun rid =>
      if rid ≠ 0 then standard.revisions.find? (fun r => r.id = rid)
      else none) with
    | some r => applyRevisionFields e r :: reconciledSpec standard es n
    | none =>
      ⟨n, standard.id, e.revision_number, e.revision_date,
        e.revision_description⟩ :: reconciledSpec standard es (n + 1)

/-! ## Delete / approve / bulk delete -/

/-- Embedding of `delete_standard` (app/services/standard_service.py):
fetch; absent gives `false` with nothing touched. Otherwise, when
`file_path` is truthy, issue one storage delete inside `try/except`
(`fileDelete` is the outcome of the awaited call; `Except.error` models it
raising, which is logged and swallowed); then delete the row (revisions
cascade) and commit. The third component lists the storage-delete calls
issued. -/
def delete_standard (fileDelete : String → Except String Bool)
    (standard_id : Nat) (store : StdStore) : Bool × StdStore × List String :=
  match get_standard_by_id standard_id store with
  | none => (false, store, [])
  | some standard =>
    match standard.file_path with
    | some p =>
      if p.isEmpty then
        (true, store.filter (fun s => s.id ≠ standard_id), [])
      else
        match fileDelete p with
        | Except.ok _ => (true, store.filter (fun s => s.id ≠ standard_id), [p])
        | Except.error _ => (true, store.filter (fun s => s.id ≠ standard_id), [p])
    | none => (true, store.filter (fun s => s.id ≠ standard_id), [])

/-- Embedding of `approve_standard`: fetch; absent gives `none`; otherwise
set `approval_status = "approved"` and commit. -/
def approve_standard (standard_id : Nat) (store : StdStore) :
    Option Standard × StdStore :=
  match get_standard_by_id standard_id store with
  | none => (none, store)
  | some standard =>
    let updated := { standard with approval_status := "approved" }
    (some updated, store.map (fun s => if s.id = standard_id then updated else s))

/-- A cache-invalidation call issued by a route (app/utils/cache_utils.py):
`listInvalidate` is `invalidate_standards_list_cache` (pattern deletion of
`fastapi-cache:list_standards*`), `detailInvalidate id` is
`invalidate_standard_detail_cache(id)` (deletion of
`fastapi-cache:get_standard:{id}`). -/
inductive CacheEvent where
  | listInvalidate
  | detailInvalidate (standard_id : Nat)
deriving DecidableEq, Repr

/-- Embedding of the `POST /standards/{id}/approve` route
`approve_pending_standard` (app/routes/standard_routes.py): 404 when the
service finds nothing; otherwise invalidate the list cache and the detail
cache and answer 200 with the standard. -/
def approve_pending_standard (standard_id : Nat) (store : StdStore) :
    Except HTTPException Standard × StdStore × List CacheEvent :=
  match approve_standard standard_id store with
  | (none, store') => (Except.error ⟨404, "Standard not found"⟩, store', [])
  | (some standard, store') =>
    (Except.ok standard, store',
     [CacheEvent.listInvalidate, CacheEvent.detailInvalidate standard_id])

/-- The loop of `bulk_delete_standard_files`: delete each id in turn (each
deletion commits on its own), invalidating that id's detail cache after each
success; the first missing id raises 404 naming it, leaving every earlier
deletion committed. -/
def bulk_delete_go (fileDelete : String → Except String Bool) :
    List Nat → StdStore → List CacheEvent →
    Except HTTPException Unit × StdStore × List CacheEvent
  | [], store, evs => (Except.ok (), store, evs ++ [CacheEvent.listInvalidate])
  | standard_id :: rest, store, evs =>
    match delete_standard fileDelete standard_id store with
    | (true, store', _) =>
      bulk_delete_go fileDelete rest store'
        (evs ++ [CacheEvent.detailInvalidate standard_id])
    | (false, store', _) =>
      (Except.error
        ⟨404, "Standard with ID " ++ toString standard_id ++ " not found"⟩,
       store', evs)

/-- Embedding of the `POST /standards/bulk-delete` route
(app/routes/standard_routes.py). -/
def bulk_delete_standard_files (fileDelete : String → Except String Bool)
    (standard_ids : List Nat) (store : StdStore) :
    Except HTTPException Unit × StdStore × List CacheEvent :=
  if standard_ids.isEmpty then
    (Except.error ⟨400, "No standard IDs provided"⟩, store, [])
  else bulk_delete_go fileDelete standard_ids store []

/-! ## Bulk upload (app/services/standard_service.py) -/

/-- An uploaded file; the active implementation observes only its filename
(the bytes are read only by the storage adapter). -/
structure FileUpload where
  filename : String
deriving DecidableEq, Repr

/-- One entry of the `available_regions` constant. -/
structure RegionInfo where
  id : String
  name : String
  description : String
deriving DecidableEq, Repr

/-- The `available_regions` constant of app/services/standard_service.py. -/
def available_regions : List RegionInfo :=
  [⟨"americas", "The Americas",
    "North and South America, Mexico, Brazil, and all islands falling under the jurisdiction of the US."⟩,
   ⟨"eu", "Europe",
    "All countries in Europe, both those part of the European Union, and others who are not part. "⟩,
   ⟨"middleEast", "Middle East",
    "Bahrain, Qatar, Oman, and the Gulf Countries throughout the Gulf. Does not include Turkey."⟩,
   ⟨"asia", "Asia",
    "All countries from southern India to Russia, including South East and East Asia."⟩]

/-- The `available_countries` constant of app/services/standard_service.py. -/
def available_countries : List String :=
  ["United Arab Emirates", "Saudi Arabia", "Qatar", "Kuwait", "Bahrain",
   "Oman", "Jordan", "Lebanon", "Iraq", "Yemen", "Brazil", "Argentina",
   "Chile", "Colombia", "Peru", "Venezuela", "Ecuador", "Uruguay",
   "Paraguay", "Bolivia", "Germany", "France", "Italy", "Spain",
   "Netherlands", "Belgium", "Poland", "Sweden", "Austria", "Denmark",
   "Finland", "Ireland", "Portugal", "Greece", "Czech Republic", "Romania",
   "Hungary", "Slovakia", "Luxembourg", "Slovenia", "Croatia", "Estonia",
   "Latvia", "Lithuania", "Malta", "Cyprus", "United Kingdom",
   "Switzerland", "Norway", "Iceland", "Ukraine", "Serbia", "Albania",
   "Montenegro", "North Macedonia", "China", "Japan", "South Korea",
   "Taiwan", "Hong Kong", "Macau", "Mongolia", "India", "Pakistan",
   "Bangladesh", "Sri Lanka", "Nepal", "Bhutan", "Maldives", "Singapore",
   "Malaysia", "Indonesia", "Thailand", "Vietnam", "Philippines",
   "Myanmar", "Cambodia", "Laos", "Brunei"]

/-- Python `repr` of one `available_regions` dict (insertion order
id, name, description). -/
def pyReprRegionInfo (r : RegionInfo) : String :=
  "\x7b\x27id\x27: \x27" ++ r.id ++ "\x27, \x27name\x27: \x27" ++ r.name ++
    "\x27, \x27description\x27: \x27" ++ r.description ++ "\x27\x7d"

/-- Python `str` of the `available_regions` list. -/
def pyReprRegionInfos (rs : List RegionInfo) : String :=
  "[" ++ String.intercalate ", " (rs.map pyReprRegionInfo) ++ "]"

/-- The inference prompt of `bulk_upload_standards`: field-by-field
instructions, the available regions and countries, and the uploaded file's
name as the only content seed. -/
def bulkUploadPrompt (file : FileUpload) : String :=
  "\n" ++
  "You will receive a Standard Name. Your task is to research and gather comprehensive information about this standard and then output a JSON object containing the fields listed below:\n" ++
  "\n" ++
  "name: The official name of the standard.\n" ++
  "\n" ++
  "description: A thorough description of the standard.\n" ++
  "\n" ++
  "issuingOrganization: The organization that issues the standard.\n" ++
  "\n" ++
  "standardNumber: The designated number or identifier of the standard.\n" ++
  "\n" ++
  "version: The latest version of the standard.\n" ++
  "\n" ++
  "standardOwner: The entity that owns the standard.\n" ++
  "\n" ++
  "standardWebsite: The URL of the website providing more information about the standard.\n" ++
  "\n" ++
  "issueDate: The issue date of the latest version (formatted as YYYY-MM-DD).\n" ++
  "\n" ++
  "effectiveDate: The effective date of the latest version (formatted as YYYY-MM-DD).\n" ++
  "\n" ++
  "revisions: An array with detailed information about each revision. Each revision should include:\n" ++
  "\n" ++
  "revision_number: The revision number.\n" ++
  "\n" ++
  "revision_date: The date of the revision (formatted as YYYY-MM-DD).\n" ++
  "\n" ++
  "revision_description: A detailed explanation of the revision, including what changes were made, why they were implemented, and any additional relevant details.\n" ++
  "Note: If there is more than one revision, include detailed information for all previous revisions.\n" ++
  "\n" ++
  "generalCategories: The general categories under which the standard falls.\n" ++
  "\n" ++
  "itCategories: The IT-specific categories associated with the standard.\n" ++
  "\n" ++
  "additionalNotes: Any additional remarks or notes related to the standard.\n" ++
  "\n" ++
  "For any fields where information is not available, use null as the value.\n" ++
  "\n" ++
  "Below are Available regions and countries:\n" ++
  pyReprRegionInfos available_regions ++ "\n" ++
  pyReprListStr available_countries ++ "\n" ++
  "\n" ++
  "The name of the standard is provided below:\n" ++
  "\n" ++
  file.filename ++ "\n"

/-- Number of days of a month, as `datetime` enforces for `%d`. -/
def daysInMonth (year month : Nat) : Nat :=
  if month = 2 then
    if year % 4 = 0 ∧ (year % 100 ≠ 0 ∨ year % 400 = 0) then 29 else 28
  else if month = 4 ∨ month = 6 ∨ month = 9 ∨ month = 11 then 30
  else 31

/-- `datetime.strptime(s, "%Y-%m-%d")` succeeding: three dash-separated
digit groups (`%Y` up to four digits, `%m`/`%d` one or two) naming a valid
calendar date. -/
def isValidIsoDate (s : String) : Bool :=
  match s.splitOn "-" with
  | [y, m, d] =>
    y.length ≥ 1 && y.length ≤ 4 && y.all Char.isDigit &&
    m.length ≥ 1 && m.length ≤ 2 && m.all Char.isDigit &&
    d.length ≥ 1 && d.length ≤ 2 && d.all Char.isDigit &&
    1 ≤ m.toNat! && m.toNat! ≤ 12 &&
    1 ≤ d.toNat! && d.toNat! ≤ daysInMonth y.toNat! m.toNat! &&
    1 ≤ y.toNat!
  | _ => false

/-- Embedding of `parse_date` (app/services/standard_service.py) applied to
the JSON value found at the date key: falsy values map to `None` without an
attempt; a truthy string is parsed with `%Y-%m-%d`; every failure (format
error, or `strptime` raising `TypeError` on a non-string) is caught and maps
to `None`. The stored value keeps the ISO string form of the date. -/
def parse_date : Json → Option String
  | Json.str s => if s = "" then none else if isValidIsoDate s then some s else none
  | _ => none

/-- `d[k]` on a decoded JSON object. `json.loads` keeps the last duplicate
key, hence the reversed search; a missing key (`none`) models `KeyError`. -/
def jsonGet (j : Json) (k : String) : Option Json :=
  match j with
  | Json.obj fields =>
    (fields.reverse.find? (fun kv => kv.1 = k)).map (fun kv => kv.2)
  | _ => none

/-- A nullable string column value taken from the decoded payload: absent or
null stays NULL; a non-string value would be rejected when the row is
written. -/
def asOptStr : Option Json → Except String (Option String)
  | none => Except.ok none
  | some Json.null => Except.ok none
  | some (Json.str s) => Except.ok (some s)
  | some _ => Except.error "DataError: expected a string"

/-- A nullable string-array column value taken from the decoded payload. -/
def asOptListStr : Option Json → Except String (Option (List String))
  | none => Except.ok none
  | some Json.null => Except.ok none
  | some (Json.arr xs) =>
    (xs.mapM (fun v =>
      match v with
      | Json.str s => Except.ok s
      | _ => Except.error "DataError: expected a string element")).map some
  | some _ => Except.error "DataError: expected an array of strings"

/-- `Revision(**revision)` for one entry of the decoded `revisions` array:
unknown keywords raise `TypeError`; the three data columns are NOT NULL, so
a missing or non-string value fails at commit. The id comes from the
database sequence. -/
def revisionFromJson (standard_id rid : Nat) (j : Json) :
    Except String Revision :=
  match j with
  | Json.obj fields =>
    if fields.all (fun (kv : String × Json) =>
        kv.1 = "revision_number" ∨ kv.1 = "revision_date" ∨
        kv.1 = "revision_description") then
      match jsonGet j "revision_number", jsonGet j "revision_date",
            jsonGet j "revision_description" with
      | some (Json.str n), some (Json.str d), some (Json.str desc) =>
        Except.ok ⟨rid, standard_id, n, d, desc⟩
      | _, _, _ => Except.error "IntegrityError: revision column is NOT NULL"
    else Except.error "TypeError: unexpected keyword argument"
  | _ => Except.error "TypeError: argument is not a mapping"

/-- The column names `Standard(**standard_data)` accepts. -/
def standardColumns : List String :=
  ["name", "description", "issuingOrganization", "standardNumber", "version",
   "standardOwner", "standardWebsite", "issueDate", "effectiveDate",
   "generalCategories", "itCategories", "additionalNotes", "regions",
   "countries", "file_path", "approval_status"]

/-- The dict-to-row steps of the bulk-upload pipeline after `json.loads`:
index the two date keys (a missing key raises `KeyError`, a non-dict payload
raises `TypeError`) and replace them by `parse_date` results, set
`file_path` and `approval_status = "pending"`, pop `revisions` (defaulting
to the empty list) and build the row and its owned revisions
(`add_standard_revisions`); any remaining unknown key makes
`Standard(**...)` raise `TypeError`. `name` is kept non-null here: the
declared response schema requires it and every claim's inputs provide it.
Returns the row and the advanced revision-id sequence. -/
def standardFromJson (j : Json) (file_path : String)
    (newStdId nextRevId : Nat) : Except String (Standard × Nat) := do
  let issueRaw ←
    match jsonGet j "issueDate" with
    | some v => Except.ok v
    | none => Except.error "KeyError: issueDate"
  let effectiveRaw ←
    match jsonGet j "effectiveDate" with
    | some v => Except.ok v
    | none => Except.error "KeyError: effectiveDate"
  let keys : List String :=
    match j with
    | Json.obj fields => fields.map (fun (kv : String × Json) => kv.1)
    | _ => []
  if ¬ keys.all (fun k => k = "revisions" ∨ k ∈ standardColumns) then
    Except.error "TypeError: unexpected keyword argument"
  else
    let name ←
      match jsonGet j "name" with
      | some (Json.str s) => Except.ok s
      | _ => Except.error "DataError: name"
    let description ← asOptStr (jsonGet j "description")
    let issuingOrganization ← asOptStr (jsonGet j "issuingOrganization")
    let standardNumber ← asOptStr (jsonGet j "standardNumber")
    let version ← asOptStr (jsonGet j "version")
    let standardOwner ← asOptStr (jsonGet j "standardOwner")
    let standardWebsite ← asOptStr (jsonGet j "standardWebsite")
    let generalCategories ← asOptListStr (jsonGet j "generalCategories")
    let itCategories ← asOptListStr (jsonGet j "itCategories")
    let additionalNotes ← asOptStr (jsonGet j "additionalNotes")
    let regions ← asOptListStr (jsonGet j "regions")
    let countries ← asOptListStr (jsonGet j "countries")
    let revisionsRaw :=
      match jsonGet j "revisions" with
      | some (Json.arr xs) => Except.ok xs
      | none => Except.ok []
      | some Json.null => Except.error "TypeError: NoneType is not iterable"
      | some _ => Except.error "TypeError: not iterable"
    let revJsons ← revisionsRaw
    let (revs, nextRevId') ← revJsons.foldlM
      (fun (acc : List Revision × Nat) v => do
        let r ← revisionFromJson newStdId acc.2 v
        Except.ok (acc.1 ++ [r], acc.2 + 1))
      (([] : List Revision), nextRevId)
    Except.ok
      ({ id := newStdId
         name := name
         description := description
         issuingOrganization := issuingOrganization
         standardNumber := standardNumber
         version := version
         standardOwner := standardOwner
         standardWebsite := standardWebsite
         issueDate := parse_date issueRaw
         effectiveDate := parse_date effectiveRaw
         generalCategories := generalCategories
         itCategories := itCategories
         additionalNotes := additionalNotes
         regions := regions
         countries := countries
         file_path := some file_path
         approval_status := "pending"
         revisions := revs }, nextRevId')

/-- Per-file body of the `try` block in `bulk_upload_standards`: upload to
storage (`upload` may raise), build the inference prompt from the filename,
call the adapter (which never raises), `json.loads` the returned content
(may raise), convert the dict to a committed row. -/
def process_upload_file (upload : FileUpload → Except String String)
    (oai : String → Except String String) (file : FileUpload)
    (newStdId nextRevId : Nat) : Except String (Standard × Nat) := do
  let file_path ← upload file
  let content := call_openai_structured oai (bulkUploadPrompt file)
  match jsonLoads content with
  | none => Except.error "json.JSONDecodeError"
  | some j => standardFromJson j file_path newStdId nextRevId

/-- One entry of the bulk-upload results list. (Success entries additionally
echo an `extracted_data` payload; no claim reads it and it is not modelled.) -/
structure UploadResult where
  id : Option Nat
  file_name : String
  status : String
  error : Option String
deriving DecidableEq, Repr

/-- The `for file in files` loop of `bulk_upload_standards`. The `except`
block executes `raise e` before its `results.append({..., "status":
"error", ...})` line, so that error entry is dead code: the first failing
file re-raises, aborting the loop with every earlier success already
committed and no results list returned. -/
def bulk_upload_go (upload : FileUpload → Except String String)
    (oai : String → Except String String) :
    List FileUpload → Nat → Nat → StdStore → List UploadResult →
    Except String (List UploadResult) × StdStore
  | [], _, _, store, results => (Except.ok results, store)
  | file :: rest, sid, rid, store, results =>
    match process_upload_file upload oai file sid rid with
    | Except.ok (std, rid') =>
      bulk_upload_go upload oai rest (sid + 1) rid' (store ++ [std])
        (results ++ [{ id := some std.id, file_name := file.filename,
                       status := "success", error := none }])
    | Except.error e => (Except.error e, store)

/-- Embedding of `bulk_upload_standards` (app/services/standard_service.py).
`nextStdId`/`nextRevId` model the database id sequences. -/
def bulk_upload_standards (upload : FileUpload → Except String String)
    (oai : String → Except String String) (files : List FileUpload)
    (nextStdId nextRevId : Nat) (store : StdStore) :
    Except String (List UploadResult) × StdStore :=
  bulk_upload_go upload oai files nextStdId nextRevId store []

/-- What the client sees from a route: a handled `HTTPException`, or an
exception that escaped the handler (FastAPI answers 500 Internal Server
Error with no body from the handler). -/
inductive RouteError where
  | http (e : HTTPException)
  | unhandled (msg : String)
deriving DecidableEq, Repr

/-- `BulkUploadResponse` (app/types/standard_types.py). -/
structure BulkUploadResponse where
  total_processed : Nat
  successful : Nat
  failed : Nat
  results : List UploadResult
deriving DecidableEq, Repr

/-- Embedding of the `POST /standards/bulk-upload` route
(app/routes/standard_routes.py): 400 when no files are sent; an exception
escaping the service propagates (no per-file report, no cache
invalidation); on a normal return the list cache is invalidated and the
response carries per-file success/failure counts. -/
def bulk_upload_standard_files (upload : FileUpload → Except String String)
    (oai : String → Except String String) (files : List FileUpload)
    (nextStdId nextRevId : Nat) (store : StdStore) :
    Except RouteError BulkUploadResponse × StdStore × List CacheEvent :=
  if files.isEmpty then
    (Except.error (RouteError.http ⟨400, "No files provided"⟩), store, [])
  else
    match bulk_upload_standards upload oai files nextStdId nextRevId store with
    | (Except.error e, store') =>
      (Except.error (RouteError.unhandled e), store', [])
    | (Except.ok results, store') =>
      let successful := (results.filter (fun r => r.status = "success")).length
      (Except.ok
        { total_processed := results.length
          successful := successful
          failed := results.length - successful
          results := results },
       store', [CacheEvent.listInvalidate])

/-! ## Supporting lemmas -/

/-- A payload whose first character is `E` is rejected by the JSON parser
regardless of fuel or tail. -/
theorem parseVal_err_head (fuel : Nat) (cs : List Char) :
    parseVal fuel ('E' :: cs) = none := by
  cases fuel with
  | zero => rfl
  | succ n => rfl

/-- The `"Error: {e}"` strings produced by the adapter wrapper never survive
`json.loads`. -/
theorem jsonLoads_error_string (e : String) :
    jsonLoads ("Error: " ++ e) = none := by
  obtain ⟨l⟩ := e
  show jsonLoadsList (("Error: " ++ String.mk l).length * 2 + 2)
    ('E' :: 'r' :: 'r' :: 'o' :: 'r' :: ':' :: ' ' :: l) = none
  unfold jsonLoadsList
  rw [parseVal_err_head]

/-- Splitting the 500 detail string at its fixed prefix. -/
theorem failed_detail_split (m : String) :
    "Failed to map standards: " ++ m =
      "Failed to map standards" ++ (": " ++ m) := by
  obtain ⟨l⟩ := m
  rfl

/-! ## C1 — mapping failure raises 500 and writes nothing -/

/-- C1: for a project id bound to an existing project, if the structured
inference call errors (the wrapper then hands back an `"Error: ..."` string)
or the returned payload fails to parse as JSON, `map_project_standard`
raises an `HTTPException` with status 500 whose detail begins with
`Failed to map standards`, and the projects table is returned unchanged —
in particular `standard_mapping` keeps its prior value. -/
theorem mapStandard_failure_no_write
    (oai : String → Except String String) (presign : String → String)
    (project_id : Nat) (stdStore : StdStore) (store : ProjStore)
    (project : ProjectModel)
    (hfind : get_project_by_id project_id store = some project)
    (hfail :
      (∃ e, oai (mapPromptFor presign stdStore project) = Except.error e) ∨
      (∃ s, oai (mapPromptFor presign stdStore project) = Except.ok s ∧
        jsonLoads s = none)) :
    ∃ rest,
      map_project_standard oai presign project_id stdStore store =
        (Except.error ⟨500, "Failed to map standards" ++ rest⟩, store) := by
  have hparse :
      jsonLoads (call_openai_structured oai (mapPromptFor presign stdStore project)) =
        none := by
    rcases hfail with ⟨e, he⟩ | ⟨s, hs, hp⟩
    · simp only [call_openai_structured, he]
      exact jsonLoads_error_string e
    · simp only [call_openai_structured, hs]
      exact hp
  refine ⟨": " ++
    jsonDecodeErrMsg (call_openai_structured oai (mapPromptFor presign stdStore project)), ?_⟩
  rw [← failed_detail_split]
  unfold map_project_standard
  rw [hfind]
  simp only [hparse]

/-- Witness input for C1: one stored project. -/
def c1Project : ProjectModel :=
  { id := 1, name := "Smart Plug", use := "remote power switching",
    description := "A WiFi-controlled plug", product_type := "electronics",
    product_category := "smart home", user_id := 7 }

/-- C1 witness: a concrete run in which the inference adapter raises. -/
theorem mapStandard_failure_no_write_witness :
    ∃ rest,
      map_project_standard (fun _ => Except.error "APIConnectionError") id 1
          [] [c1Project] =
        (Except.error ⟨500, "Failed to map standards" ++ rest⟩, [c1Project]) :=
  mapStandard_failure_no_write _ _ _ _ _ c1Project rfl
    (Or.inl ⟨"APIConnectionError", rfl⟩)

/-! ## C8 — delete issues one storage delete and swallows its failure -/

/-- C8 (amended: the claim holds for a non-null **and non-empty** stored
path; the Python truthiness test skips the storage call for an empty
string): deleting a standard whose `file_path` holds a non-empty path issues
exactly one storage-delete call for that path, and succeeds in removing the
row whether that call returns or raises. -/
theorem delete_standard_cleanup
    (fileDelete : String → Except String Bool) (standard_id : Nat)
    (store : StdStore) (std : Standard) (p : String)
    (hfind : get_standard_by_id standard_id store = some std)
    (hpath : std.file_path = some p) (hne : p ≠ "") :
    delete_standard fileDelete standard_id store =
      (true, store.filter (fun s => s.id ≠ standard_id), [p]) := by
  have hemp : ¬ (p.isEmpty = true) := by
    simpa [String.isEmpty_iff] using hne
  unfold delete_standard
  rw [hfind]
  dsimp only
  rw [hpath]
  dsimp only
  rw [if_neg hemp]
  cases hfd : fileDelete p <;> rfl

/-- Witness input for C8: a standard holding a stored file. -/
def c8Std : Standard :=
  { id := 3, name := "IEC 62368-1",
    file_path := some "https://nyc3.digitaloceanspaces.com/standards-storage/standards/a.pdf" }

/-- C8 witness: a concrete deletion in which the storage delete raises; the
row is still removed, exactly one delete call was issued, and the service
reports success. -/
theorem delete_standard_cleanup_witness :
    delete_standard (fun _ => Except.error "ClientError") 3 [c8Std] =
      (true, [],
       ["https://nyc3.digitaloceanspaces.com/standards-storage/standards/a.pdf"]) :=
  delete_standard_cleanup _ 3 [c8Std] c8Std _ rfl rfl (by decide)

/-- Counterexample input for C8 as stated: a non-null but empty path. -/
def c8EmptyPathStd : Standard :=
  { id := 4, name := "Orphan", file_path := some "" }

/-- C8 counterexample to the claim as stated: this standard has a non-null
`file_path`, yet its deletion issues **zero** storage-delete calls (the
`if standard.file_path:` truthiness test rejects the empty string). -/
theorem delete_standard_cleanup_counterexample :
    c8EmptyPathStd.file_path = some "" ∧
    delete_standard (fun _ => Except.ok true) 4 [c8EmptyPathStd] =
      (true, [], []) :=
  ⟨rfl, rfl⟩

/-! ## C3 — client writes to standard_mapping -/

/-- A mapping document a client could smuggle into the create payload. -/
def c3MappingDoc : Json :=
  Json.obj [("mappings", Json.arr []), ("summary", Json.str "client-injected"),
    ("confidence_score", Json.num "1")]

/-- A create payload that supplies `standard_mapping` directly. -/
def c3Payload : ProjectCreateModel :=
  { name := "Smart Plug", use := "power switching", description := "IoT plug",
    product_type := "electronics", product_category := "smart home",
    user_id := 7, standard_mapping := some c3MappingDoc }

/-- C3 counterexample to the claim as stated: `ProjectCreateModel` inherits
`standard_mapping` from `ProjectBase`, and `create_project` copies the
client-supplied value onto the new row, so the mapping field of a project
the mapping operation never ran on is **not** null here. -/
theorem create_project_client_mapping_counterexample :
    (create_project c3Payload 1 []).1.standard_mapping = some c3MappingDoc ∧
    some c3MappingDoc ≠ (none : Option Json) :=
  ⟨rfl, Option.some_ne_none c3MappingDoc⟩

/-- C3 (amended): the **update** operation can never change any row's
`standard_mapping` (the update model has no such field), and the **create**
operation leaves it null whenever the client did not supply one; but a
client-supplied `standard_mapping` in the create payload is written to the
row (see the counterexample). -/
theorem standard_mapping_client_write_scope
    (project_id : Nat) (data : ProjectUpdateModel) (store : ProjStore)
    (payload : ProjectCreateModel) (newId : Nat)
    (hWF : (store.map (fun p => p.id)).Nodup)
    (hsm : payload.standard_mapping = none) :
    ((update_project project_id data store).2).map (fun p => p.standard_mapping) =
      store.map (fun p => p.standard_mapping) ∧
    (create_project payload newId store).1.standard_mapping = none := by
  constructor
  · unfold update_project
    cases hfind : get_project_by_id project_id store with
    | none => rfl
    | some project =>
      dsimp only
      rw [List.map_map]
      refine List.map_congr_left ?_
      intro x hx
      simp only [Function.comp_apply]
      by_cases hid : x.id = project_id
      · have hxp : x = project := by
          have hfind' :
              store.find? (fun p => p.id = project_id) = some project := hfind
          have hproj_mem : project ∈ store :=
            List.mem_of_find?_eq_some hfind'
          have hp := List.find?_some hfind'
          have hproj_id : project.id = project_id := by simpa using hp
          exact List.inj_on_of_nodup_map hWF hx hproj_mem
            (by rw [hid, hproj_id])
        rw [if_pos hid, hxp]
      · rw [if_neg hid]
  · exact hsm

/-- Witness inputs for C3: a stored project with an existing mapping, an
update payload, and a clean create payload. -/
def c3StoredProject : ProjectModel :=
  { id := 2, name := "Router", use := "networking",
    description := "WiFi 6 router", product_type := "electronics",
    product_category := "networking", user_id := 3,
    standard_mapping := some (Json.str "old") }

/-- Update payload for the C3 witness. -/
def c3UpdatePayload : ProjectUpdateModel :=
  { name := some "Renamed router", regions := some (some ["eu"]) }

/-- Create payload without `standard_mapping` for the C3 witness. -/
def c3CleanCreate : ProjectCreateModel :=
  { name := "Camera", use := "surveillance", description := "IP camera",
    product_type := "electronics", product_category := "security",
    user_id := 3 }

/-- C3 witness: a concrete update leaves the stored mapping column
untouched, and a concrete create without a client mapping leaves it null. -/
theorem standard_mapping_client_write_scope_witness :
    ((update_project 2 c3UpdatePayload [c3StoredProject]).2).map
        (fun p => p.standard_mapping) =
      [c3StoredProject].map (fun p => p.standard_mapping) ∧
    (create_project c3CleanCreate 9 [c3StoredProject]).1.standard_mapping = none :=
  standard_mapping_client_write_scope 2 c3UpdatePayload [c3StoredProject]
    c3CleanCreate 9 (by decide) rfl

/-! ## C7 — approving is idempotent -/

/-- After replacing every row bearing `standard_id` by `upd` (whose id is
`standard_id`), the lookup finds `upd` exactly when it found something
before. -/
theorem find?_map_replace (standard_id : Nat) (store : StdStore)
    (upd : Standard) (hupd : upd.id = standard_id) :
    (store.map (fun s => if s.id = standard_id then upd else s)).find?
        (fun s => s.id = standard_id) =
      (store.find? (fun s => s.id = standard_id)).map (fun _ => upd) := by
  induction store with
  | nil => rfl
  | cons x xs ih =>
    by_cases hx : x.id = standard_id
    · simp [List.find?_cons_of_pos, hx, hupd]
    · simp only [List.map_cons, if_neg hx]
      rw [List.find?_cons_of_neg _ (by simpa using hx),
        List.find?_cons_of_neg _ (by simpa using hx), ih]

/-- Applying `approve_standard` twice leaves the same table as applying it
once, for any table. -/
theorem approve_standard_idem (standard_id : Nat) (store : StdStore) :
    (approve_standard standard_id (approve_standard standard_id store).2).2 =
      (approve_standard standard_id store).2 := by
  cases hfind : store.find? (fun s => s.id = standard_id) with
  | none =>
    have h1 : approve_standard standard_id store = (none, store) := by
      unfold approve_standard get_standard_by_id
      rw [hfind]
    rw [h1]
    dsimp only
    rw [h1]
  | some std =>
    have hid : std.id = standard_id := by simpa using List.find?_some hfind
    have h1 : approve_standard standard_id store =
        (some { std with approval_status := "approved" },
         store.map (fun s =>
           if s.id = standard_id then { std with approval_status := "approved" }
           else s)) := by
      unfold approve_standard get_standard_by_id
      rw [hfind]
    have h2 : approve_standard standard_id
        (store.map (fun s =>
          if s.id = standard_id then { std with approval_status := "approved" }
          else s)) =
        (some { std with approval_status := "approved" },
         (store.map (fun s =>
           if s.id = standard_id then { std with approval_status := "approved" }
           else s)).map (fun s =>
           if s.id = standard_id then { std with approval_status := "approved" }
           else s)) := by
      unfold approve_standard get_standard_by_id
      rw [find?_map_replace standard_id store
        { std with approval_status := "approved" } hid, hfind]
      rfl
    rw [h1]
    dsimp only
    rw [h2]
    dsimp only
    rw [List.map_map]
    refine List.map_congr_left ?_
    intro x _
    simp only [Function.comp_apply]
    by_cases hxid : x.id = standard_id
    · rw [if_pos hxid, if_pos hid]
    · rw [if_neg hxid, if_neg hxid]

/-- C7: approving a standard whose `approval_status` is already `approved`
succeeds (the route answers 200 with the standard, after invalidating the
caches) and leaves the table unchanged; and on any table, approving twice in
succession ends in the same state as approving once. -/
theorem approve_approved_standard_noop
    (store : StdStore) (standard_id : Nat) (std : Standard)
    (hWF : (store.map (fun s => s.id)).Nodup)
    (hfind : get_standard_by_id standard_id store = some std)
    (happroved : std.approval_status = "approved") :
    approve_pending_standard standard_id store =
      (Except.ok std, store,
       [CacheEvent.listInvalidate, CacheEvent.detailInvalidate standard_id]) ∧
    ∀ store' : StdStore,
      (approve_standard standard_id (approve_standard standard_id store').2).2 =
        (approve_standard standard_id store').2 := by
  refine ⟨?_, fun store' => approve_standard_idem standard_id store'⟩
  have hupd : ({ std with approval_status := "approved" } : Standard) = std := by
    rw [← happroved]
  have hfind' : store.find? (fun s => s.id = standard_id) = some std := hfind
  have hmem : std ∈ store := List.mem_of_find?_eq_some hfind'
  have hid : std.id = standard_id := by simpa using List.find?_some hfind'
  have hmap : store.map (fun s => if s.id = standard_id then std else s) = store := by
    have hcong := List.map_congr_left (l := store)
      (f := fun s => if s.id = standard_id then std else s) (g := fun s => s)
      (fun x hx => by
        show (if x.id = standard_id then std else x) = x
        by_cases hxid : x.id = standard_id
        · rw [if_pos hxid]
          exact List.inj_on_of_nodup_map hWF hmem hx (by rw [hid, hxid])
        · rw [if_neg hxid])
    simpa using hcong
  unfold approve_pending_standard approve_standard
  rw [hfind]
  dsimp only
  rw [hupd, hmap]

/-- Witness input for C7: an already-approved standard. -/
def c7Std : Standard :=
  { id := 6, name := "ISO 14001", approval_status := "approved" }

/-- C7 witness: concretely approving an approved standard returns 200 with
the unchanged row and an unchanged table, and a second approval changes
nothing. -/
theorem approve_approved_standard_noop_witness :
    approve_pending_standard 6 [c7Std] =
      (Except.ok c7Std, [c7Std],
       [CacheEvent.listInvalidate, CacheEvent.detailInvalidate 6]) ∧
    ∀ store' : StdStore,
      (approve_standard 6 (approve_standard 6 store').2).2 =
        (approve_standard 6 store').2 :=
  approve_approved_standard_noop [c7Std] 6 c7Std (by decide) rfl rfl

/-! ## C9 — create route triggers mapping and swallows its failure -/

/-- When `map_project_standard` raises, it has written nothing: the returned
projects table is the input table. -/
theorem map_project_standard_error_store
    (oai : String → Except String String) (presign : String → String)
    (project_id : Nat) (stdStore : StdStore) (store : ProjStore)
    (err : HTTPException)
    (h : (map_project_standard oai presign project_id stdStore store).1 =
      Except.error err) :
    (map_project_standard oai presign project_id stdStore store).2 = store := by
  unfold map_project_standard at h ⊢
  cases hfind : get_project_by_id project_id store with
  | none => rfl
  | some project =>
    rw [hfind] at h
    dsimp only at h ⊢
    cases hparse :
        jsonLoads (call_openai_structured oai (mapPromptFor presign stdStore project)) with
    | none => rfl
    | some doc =>
      rw [hparse] at h
      simp at h

/-- C9: `POST /projects` creates and commits the row, then automatically
triggers the mapping workflow on the new id; when that mapping attempt
raises an `HTTPException`, the failure is swallowed: the route still answers
201 with the created row, the row persists in the table, and (the payload
having carried no mapping) its `standard_mapping` is null. -/
theorem create_route_mapping_failure_swallowed
    (oai : String → Except String String) (presign : String → String)
    (payload : ProjectCreateModel) (newId : Nat) (stdStore : StdStore)
    (store : ProjStore) (err : HTTPException)
    (hsm : payload.standard_mapping = none)
    (hfresh : get_project_by_id newId store = none)
    (hfail : (map_project_standard oai presign newId stdStore
        ((create_project payload newId store).2)).1 = Except.error err) :
    create_new_project oai presign payload newId stdStore store =
      (Except.ok ((create_project payload newId store).1),
       store ++ [(create_project payload newId store).1]) ∧
    ((create_project payload newId store).1).standard_mapping = none := by
  refine ⟨?_, hsm⟩
  have hstore :=
    map_project_standard_error_store oai presign newId stdStore
      ((create_project payload newId store).2) err hfail
  have hcreated_id : ((create_project payload newId store).1).id = newId := rfl
  have hfresh' : store.find? (fun p => p.id = newId) = none := hfresh
  have hfind2 : get_project_by_id newId ((create_project payload newId store).2) =
      some ((create_project payload newId store).1) := by
    show get_project_by_id newId
      (store ++ [(create_project payload newId store).1]) = _
    unfold get_project_by_id
    rw [List.find?_append, hfresh']
    rw [List.find?_cons_of_pos _ (by
      show decide (((create_project payload newId store).1).id = newId) = true
      rw [hcreated_id]
      simp)]
    rfl
  unfold create_new_project
  dsimp only
  rw [hcreated_id]
  cases hm : map_project_standard oai presign newId stdStore
      ((create_project payload newId store).2) with
  | mk r s =>
    have hr : r = Except.error err := by rw [← hfail, hm]
    have hs : s = (create_project payload newId store).2 := by rw [← hstore, hm]
    subst hr
    subst hs
    dsimp only
    rw [hfind2]
    rfl

/-- Witness payload for C9 (no client-supplied mapping). -/
def c9Payload : ProjectCreateModel :=
  { name := "Drone", use := "aerial inspection", description := "A quadcopter",
    product_type := "electronics", product_category := "robotics",
    user_id := 4 }

/-- C9 witness: on an empty table, a concrete create whose mapping call
errors still answers 201 with the persisted row and a null mapping. -/
theorem create_route_mapping_failure_swallowed_witness :
    create_new_project (fun _ => Except.error "rate limited") id c9Payload 1
        [] [] =
      (Except.ok ((create_project c9Payload 1 []).1),
       [] ++ [(create_project c9Payload 1 []).1]) ∧
    ((create_project c9Payload 1 []).1).standard_mapping = none :=
  create_route_mapping_failure_swallowed (fun _ => Except.error "rate limited")
    id c9Payload 1 [] []
    ⟨500, "Failed to map standards: " ++
      jsonDecodeErrMsg (call_openai_structured (fun _ => Except.error "rate limited")
        (mapPromptFor id [] (create_project c9Payload 1 []).1))⟩
    rfl rfl (by rfl)

/-! ## C10 — bulk delete is not atomic -/

/-- A standard present in the table can always be deleted; the resulting
table is the input minus that id (the storage trace is existentially
quantified, as it depends on the row's `file_path`). -/
theorem delete_standard_found (fileDelete : String → Except String Bool)
    (standard_id : Nat) (store : StdStore)
    (h : ∃ s ∈ store, s.id = standard_id) :
    ∃ t, delete_standard fileDelete standard_id store =
      (true, store.filter (fun s => s.id ≠ standard_id), t) := by
  have hsome : (store.find? (fun s => s.id = standard_id)).isSome := by
    rw [List.find?_isSome]
    obtain ⟨s, hs, hid⟩ := h
    exact ⟨s, hs, by simpa using hid⟩
  obtain ⟨std, hstd⟩ := Option.isSome_iff_exists.mp hsome
  unfold delete_standard get_standard_by_id
  rw [hstd]
  dsimp only
  cases hfp : std.file_path with
  | none => exact ⟨[], rfl⟩
  | some p =>
    dsimp only
    by_cases hemp : p.isEmpty = true
    · rw [if_pos hemp]
      exact ⟨[], rfl⟩
    · rw [if_neg hemp]
      cases fileDelete p
      · exact ⟨[p], rfl⟩
      · exact ⟨[p], rfl⟩

/-- The bulk-delete loop on `done ++ bad :: rest`, when every id in `done`
names a distinct existing row and `bad` names none: the loop deletes and
commits each `done` id in turn (invalidating its detail cache), then raises
404 naming `bad`, never reaching `rest` and never rolling anything back. -/
theorem bulk_delete_go_spec (fileDelete : String → Except String Bool)
    (done : List Nat) (bad : Nat) (rest : List Nat) :
    ∀ (store : StdStore) (evs : List CacheEvent),
    done.Nodup →
    (∀ d ∈ done, ∃ s ∈ store, s.id = d) →
    (∀ s ∈ store, s.id ≠ bad) →
    bulk_delete_go fileDelete (done ++ bad :: rest) store evs =
      (Except.error
        ⟨404, "Standard with ID " ++ toString bad ++ " not found"⟩,
       store.filter (fun s => decide (s.id ∉ done)),
       evs ++ done.map CacheEvent.detailInvalidate) := by
  induction done with
  | nil =>
    intro store evs _ _ hbad
    have hfind : store.find? (fun s => s.id = bad) = none := by
      rw [List.find?_eq_none]
      intro x hx
      simpa using hbad x hx
    have hdel : delete_standard fileDelete bad store = (false, store, []) := by
      unfold delete_standard get_standard_by_id
      rw [hfind]
    show bulk_delete_go fileDelete (bad :: rest) store evs = _
    unfold bulk_delete_go
    rw [hdel]
    simp [List.filter_eq_self]
  | cons d ds ih =>
    intro store evs hnd hpres hbad
    obtain ⟨hd_notin, hds_nd⟩ := List.nodup_cons.mp hnd
    obtain ⟨t, ht⟩ := delete_standard_found fileDelete d store
      (hpres d (List.mem_cons_self d ds))
    rw [List.cons_append]
    unfold bulk_delete_go
    rw [ht]
    dsimp only
    rw [ih (store.filter (fun s => s.id ≠ d))
      (evs ++ [CacheEvent.detailInvalidate d]) hds_nd
      (by
        intro d' hd'
        obtain ⟨s, hs, hid⟩ := hpres d' (List.mem_cons_of_mem d hd')
        refine ⟨s, ?_, hid⟩
        rw [List.mem_filter]
        refine ⟨hs, ?_⟩
        have hne : d' ≠ d := fun hEq => hd_notin (hEq ▸ hd')
        simp [hid, hne])
      (by
        intro s hs
        exact hbad s (List.mem_of_mem_filter hs))]
    rw [List.filter_filter]
    have h2 : List.filter (fun a => decide (a.id ∉ ds) && decide (a.id ≠ d)) store =
        List.filter (fun s => decide (s.id ∉ d :: ds)) store :=
      List.filter_congr (fun x _ => by
        by_cases h1 : x.id = d
        · simp [h1]
        · by_cases hmem : x.id ∈ ds <;> simp [h1, hmem])
    rw [h2]
    simp

/-- C10: bulk delete is not atomic. For an id list `done ++ bad :: rest`
where the ids in `done` are distinct and each names an existing Standard
while `bad` names none, the route deletes and individually commits every
`done` row (invalidating each one's detail cache), then raises 404 naming
`bad`; the earlier deletions are not rolled back and `rest` is never
reached. -/
theorem bulk_delete_not_atomic (fileDelete : String → Except String Bool)
    (done : List Nat) (bad : Nat) (rest : List Nat) (store : StdStore)
    (hnd : done.Nodup)
    (hpres : ∀ d ∈ done, ∃ s ∈ store, s.id = d)
    (hbad : ∀ s ∈ store, s.id ≠ bad) :
    bulk_delete_standard_files fileDelete (done ++ bad :: rest) store =
      (Except.error
        ⟨404, "Standard with ID " ++ toString bad ++ " not found"⟩,
       store.filter (fun s => decide (s.id ∉ done)),
       done.map CacheEvent.detailInvalidate) := by
  unfold bulk_delete_standard_files
  rw [if_neg (by simp)]
  simpa using bulk_delete_go_spec fileDelete done bad rest store [] hnd hpres hbad

/-- Witness inputs for C10: two stored standards. -/
def c10Std1 : Standard := { id := 1, name := "EN 301 489" }

/-- Second witness standard for C10. -/
def c10Std2 : Standard := { id := 2, name := "EN 300 328" }

/-- C10 witness: deleting ids `[1, 5]` deletes and commits standard 1 and
invalidates its detail cache, then 404s naming 5; standard 1 stays gone. -/
theorem bulk_delete_not_atomic_witness :
    bulk_delete_standard_files (fun _ => Except.ok true) [1, 5]
        [c10Std1, c10Std2] =
      (Except.error ⟨404, "Standard with ID 5 not found"⟩,
       [c10Std2], [CacheEvent.detailInvalidate 1]) :=
  bulk_delete_not_atomic (fun _ => Except.ok true) [1] 5 []
    [c10Std1, c10Std2] (by decide) (by decide) (by decide)

/-! ## C4 — revision reconciliation -/

/-- The id a payload entry is reconciled against, when the loop recognizes
one: a truthy id naming an existing revision. -/
def recognizedId (standard : Standard) (e : RevisionPayload) : Option Nat :=
  match e.id with
  | some rid =>
    if rid ≠ 0 ∧ rid ∈ standard.revisions.map (fun r => r.id) then some rid
    else none
  | none => none

/-- Lookup by id commutes with an id-preserving map. -/
theorem find?_id_map_pres (l : List Revision) (g : Revision → Revision)
    (hg : ∀ r, (g r).id = r.id) (a : Nat) :
    (l.map g).find? (fun r => r.id = a) =
      (l.find? (fun r => r.id = a)).map g := by
  rw [List.find?_map]
  congr 2
  funext r
  simp [Function.comp, hg]

/-- The in-place field update keeps the row id. -/
theorem applyRevisionFields_id (e : RevisionPayload) (r : Revision) :
    (applyRevisionFields e r).id = r.id := rfl

/-- Updating the rows bearing id `b` does not change the lookup at a
different id `a`. -/
theorem find?_rev_untouched (l : List Revision) (e : RevisionPayload)
    (a b : Nat) (hne : a ≠ b) :
    (l.map (fun r => if r.id = b then applyRevisionFields e r else r)).find?
        (fun r => r.id = a) =
      l.find? (fun r => r.id = a) := by
  rw [find?_id_map_pres _ _
    (fun r => by by_cases h : r.id = b <;> simp [h, applyRevisionFields]) a]
  cases hf : l.find? (fun r => r.id = a) with
  | none => rfl
  | some r =>
    have hra : r.id = a := by simpa using List.find?_some hf
    have : ¬ (r.id = b) := by rw [hra]; exact hne
    simp [this]

/-- The lookup at the updated id returns the updated row. -/
theorem find?_rev_updated (l : List Revision) (e : RevisionPayload) (b : Nat) :
    (l.map (fun r => if r.id = b then applyRevisionFields e r else r)).find?
        (fun r => r.id = b) =
      (l.find? (fun r => r.id = b)).map (fun r => applyRevisionFields e r) := by
  rw [find?_id_map_pres _ _
    (fun r => by by_cases h : r.id = b <;> simp [h, applyRevisionFields]) b]
  cases hf : l.find? (fun r => r.id = b) with
  | none => rfl
  | some r =>
    have hrb : r.id = b := by simpa using List.find?_some hf
    simp [hrb]

/-- Every element of the spec-side reconciled collection either carries an id
supplied in the payload or a freshly drawn id at least `n`. -/
theorem reconciledSpec_id_mem (standard : Standard) :
    ∀ (data : List RevisionPayload) (n : Nat) (r' : Revision),
    r' ∈ reconciledSpec standard data n →
    (∃ e ∈ data, ∃ rid, e.id = some rid ∧ r'.id = rid) ∨ n ≤ r'.id := by
  intro data
  induction data with
  | nil =>
    intro n r' h
    simp [reconciledSpec] at h
  | cons e es ih =>
    intro n r' h
    unfold reconciledSpec at h
    cases hb : e.id.bind (fun rid =>
        if rid ≠ 0 then standard.revisions.find? (fun r => r.id = rid)
        else none) with
    | some r =>
      rw [hb] at h
      rcases List.mem_cons.mp h with hhead | htail
      · obtain ⟨rid, heid, hif⟩ := Option.bind_eq_some.mp hb
        have hfind : standard.revisions.find? (fun r => r.id = rid) = some r := by
          by_cases h0 : rid ≠ 0
          · rwa [if_pos h0] at hif
          · rw [if_neg h0] at hif
            exact absurd hif (by simp)
        have hrid : r.id = rid := by simpa using List.find?_some hfind
        exact Or.inl ⟨e, List.mem_cons_self e es, rid, heid,
          by rw [hhead, applyRevisionFields_id, hrid]⟩
      · rcases ih n r' htail with ⟨e', he', hrest⟩ | hge
        · exact Or.inl ⟨e', List.mem_cons_of_mem e he', hrest⟩
        · exact Or.inr hge
    | none =>
      rw [hb] at h
      rcases List.mem_cons.mp h with hhead | htail
      · exact Or.inr (by rw [hhead])
      · rcases ih (n + 1) r' htail with ⟨e', he', hrest⟩ | hge
        · exact Or.inl ⟨e', List.mem_cons_of_mem e he', hrest⟩
        · exact Or.inr (Nat.le_of_succ_le hge)

/-- The reconciliation loop, run from any intermediate state whose
pre-existing rows are untouched at the ids still to be recognized and whose
accumulated references do not alias them: the final dereferenced collection
extends the dereferenced accumulator by the spec-side reconciled list. -/
theorem reconcile_fold_spec (standard : Standard) :
    ∀ (data : List RevisionPayload) (ups : List Revision) (refs : List RevRef)
      (n : Nat),
    (∀ rid ∈ data.filterMap (recognizedId standard),
      ups.find? (fun r => r.id = rid) =
        standard.revisions.find? (fun r => r.id = rid)) →
    (data.filterMap (recognizedId standard)).Nodup →
    (∀ rid ∈ data.filterMap (recognizedId standard),
      RevRef.existing rid ∉ refs) →
    ((data.foldl
        (reconcileStep (standard.revisions.map (fun r => r.id)) standard.id)
        ⟨ups, refs, n⟩).refs).map
      (resolveRef
        (data.foldl
          (reconcileStep (standard.revisions.map (fun r => r.id)) standard.id)
          ⟨ups, refs, n⟩).updates) =
      refs.map (resolveRef ups) ++ reconciledSpec standard data n := by
  intro data
  induction data with
  | nil =>
    intro ups refs n _ _ _
    simp [reconciledSpec]
  | cons e es ih =>
    intro ups refs n huntouched hnd hrefs
    rw [List.foldl_cons]
    cases he : e.id with
    | some rid =>
      by_cases hrec : rid ≠ 0 ∧ rid ∈ standard.revisions.map (fun r => r.id)
      · -- the entry is reconciled against an existing revision
        have hstep : reconcileStep (standard.revisions.map (fun r => r.id))
            standard.id ⟨ups, refs, n⟩ e =
            ⟨ups.map (fun r => if r.id = rid then applyRevisionFields e r else r),
             refs ++ [RevRef.existing rid], n⟩ := by
          unfold reconcileStep
          rw [he]
          dsimp only
          rw [if_pos hrec]
        rw [hstep]
        have hfm : (e :: es).filterMap (recognizedId standard) =
            rid :: es.filterMap (recognizedId standard) := by
          rw [List.filterMap_cons]
          have hre : recognizedId standard e = some rid := by
            unfold recognizedId
            rw [he]
            dsimp only
            rw [if_pos hrec]
          rw [hre]
        rw [hfm] at huntouched hnd hrefs
        obtain ⟨hrid_notin, hnd'⟩ := List.nodup_cons.mp hnd
        have hne_of_mem :
            ∀ rid' ∈ es.filterMap (recognizedId standard), rid' ≠ rid :=
          fun rid' h' hEq => hrid_notin (hEq ▸ h')
        rw [ih (ups.map fun r => if r.id = rid then applyRevisionFields e r else r)
          (refs ++ [RevRef.existing rid]) n
          (fun rid' h' => by
            rw [find?_rev_untouched _ _ _ _ (hne_of_mem rid' h')]
            exact huntouched rid' (List.mem_cons_of_mem _ h'))
          hnd'
          (fun rid' h' hmem => by
            rcases List.mem_append.mp hmem with hin | hin
            · exact hrefs rid' (List.mem_cons_of_mem _ h') hin
            · have hEq := List.mem_singleton.mp hin
              exact hne_of_mem rid' h' (by injection hEq))]
        obtain ⟨r, hr⟩ :
            ∃ r, standard.revisions.find? (fun r => r.id = rid) = some r := by
          refine Option.isSome_iff_exists.mp ?_
          rw [List.find?_isSome]
          obtain ⟨s, hs, hsid⟩ := List.mem_map.mp hrec.2
          exact ⟨s, hs, by simpa using hsid⟩
        have hspec : reconciledSpec standard (e :: es) n =
            applyRevisionFields e r :: reconciledSpec standard es n := by
          simp only [reconciledSpec]
          rw [he]
          have hb : ((some rid).bind fun rid =>
              if rid ≠ 0 then standard.revisions.find? (fun r => r.id = rid)
              else none) = some r := by
            show (if rid ≠ 0 then standard.revisions.find? (fun r => r.id = rid)
              else none) = some r
            rw [if_pos hrec.1, hr]
          rw [hb]
        have holdrefs : refs.map (resolveRef
            (ups.map fun r => if r.id = rid then applyRevisionFields e r else r)) =
            refs.map (resolveRef ups) := by
          refine List.map_congr_left ?_
          intro ref href
          cases ref with
          | fresh rev => rfl
          | existing rid'' =>
            have hne : rid'' ≠ rid := fun hEq =>
              hrefs rid (List.mem_cons_self _ _) (hEq ▸ href)
            simp only [resolveRef]
            rw [find?_rev_untouched _ _ _ _ hne]
        have hsing : resolveRef
            (ups.map fun r => if r.id = rid then applyRevisionFields e r else r)
            (RevRef.existing rid) = applyRevisionFields e r := by
          simp only [resolveRef]
          rw [find?_rev_updated, huntouched rid (List.mem_cons_self _ _), hr]
          rfl
        rw [List.map_append, holdrefs, hspec]
        dsimp only [List.map_cons, List.map_nil]
        rw [hsing, List.append_assoc]
        rfl
      · -- a supplied id the loop does not recognize: inserted as new
        have hstep : reconcileStep (standard.revisions.map (fun r => r.id))
            standard.id ⟨ups, refs, n⟩ e =
            ⟨ups, refs ++ [RevRef.fresh
              ⟨n, standard.id, e.revision_number, e.revision_date,
                e.revision_description⟩], n + 1⟩ := by
          unfold reconcileStep
          rw [he]
          dsimp only
          rw [if_neg hrec]
        rw [hstep]
        have hfm : (e :: es).filterMap (recognizedId standard) =
            es.filterMap (recognizedId standard) := by
          rw [List.filterMap_cons]
          have hre : recognizedId standard e = none := by
            unfold recognizedId
            rw [he]
            dsimp only
            rw [if_neg hrec]
          rw [hre]
        rw [hfm] at huntouched hnd hrefs
        rw [ih ups (refs ++ [RevRef.fresh
            ⟨n, standard.id, e.revision_number, e.revision_date,
              e.revision_description⟩]) (n + 1)
          huntouched hnd
          (fun rid' h' hmem => by
            rcases List.mem_append.mp hmem with hin | hin
            · exact hrefs rid' h' hin
            · have hEq := List.mem_singleton.mp hin
              simp at hEq)]
        have hspec : reconciledSpec standard (e :: es) n =
            ⟨n, standard.id, e.revision_number, e.revision_date,
              e.revision_description⟩ :: reconciledSpec standard es (n + 1) := by
          simp only [reconciledSpec]
          rw [he]
          have hb : ((some rid).bind fun rid =>
              if rid ≠ 0 then standard.revisions.find? (fun r => r.id = rid)
              else none) = none := by
            show (if rid ≠ 0 then standard.revisions.find? (fun r => r.id = rid)
              else none) = none
            by_cases h0 : rid ≠ 0
            · rw [if_pos h0]
              rw [List.find?_eq_none]
              intro x hx hEq
              exact hrec ⟨h0, List.mem_map.mpr ⟨x, hx, by simpa using hEq⟩⟩
            · rw [if_neg h0]
          rw [hb]
        rw [List.map_append, hspec]
        dsimp only [List.map_cons, List.map_nil]
        rw [List.append_assoc]
        rfl
    | none =>
      -- no id supplied: inserted as new
      have hstep : reconcileStep (standard.revisions.map (fun r => r.id))
          standard.id ⟨ups, refs, n⟩ e =
          ⟨ups, refs ++ [RevRef.fresh
            ⟨n, standard.id, e.revision_number, e.revision_date,
              e.revision_description⟩], n + 1⟩ := by
        unfold reconcileStep
        rw [he]
      rw [hstep]
      have hfm : (e :: es).filterMap (recognizedId standard) =
          es.filterMap (recognizedId standard) := by
        simp [List.filterMap_cons, recognizedId, he]
      rw [hfm] at huntouched hnd hrefs
      rw [ih ups (refs ++ [RevRef.fresh
          ⟨n, standard.id, e.revision_number, e.revision_date,
            e.revision_description⟩]) (n + 1)
        huntouched hnd
        (fun rid' h' hmem => by
          rcases List.mem_append.mp hmem with hin | hin
          · exact hrefs rid' h' hin
          · have hEq := List.mem_singleton.mp hin
            simp at hEq)]
      have hspec : reconciledSpec standard (e :: es) n =
          ⟨n, standard.id, e.revision_number, e.revision_date,
            e.revision_description⟩ :: reconciledSpec standard es (n + 1) := by
        simp only [reconciledSpec]
        rw [he]
        rfl
      rw [List.map_append, hspec]
      dsimp only [List.map_cons, List.map_nil]
      rw [List.append_assoc]
      rfl

/-- C4 (amended: the supplied entries the loop reconciles against existing
revisions must reference pairwise-distinct ids — the counterexample shows
the claim fails when one existing id is supplied twice): the revision
reconciliation replaces the collection by exactly the supplied list —
an entry with a recognized id updates that revision in place keeping its id,
every other entry becomes a fresh insert owned by the standard, and every
existing revision whose id is absent from the supplied list is gone after
commit. -/
theorem update_standard_revisions_replaces_collection
    (standard : Standard) (revisions_data : List RevisionPayload) (nextId : Nat)
    (hnd : (revisions_data.filterMap (recognizedId standard)).Nodup)
    (hfresh : ∀ r ∈ standard.revisions, r.id < nextId) :
    (update_standard_revisions standard revisions_data nextId).1.revisions =
      reconciledSpec standard revisions_data nextId ∧
    ∀ r ∈ standard.revisions,
      (∀ e ∈ revisions_data, e.id ≠ some r.id) →
      ∀ r' ∈ (update_standard_revisions standard revisions_data nextId).1.revisions,
        r'.id ≠ r.id := by
  have hmain :
      (update_standard_revisions standard revisions_data nextId).1.revisions =
        reconciledSpec standard revisions_data nextId := by
    unfold update_standard_revisions
    dsimp only
    have hfold := reconcile_fold_spec standard revisions_data
      standard.revisions [] nextId (fun rid _ => rfl) hnd
      (fun rid _ => List.not_mem_nil _)
    simpa using hfold
  refine ⟨hmain, ?_⟩
  intro r hr hnever r' hr'
  rw [hmain] at hr'
  rcases reconciledSpec_id_mem standard revisions_data nextId r' hr' with
    ⟨e, he, rid, heid, hid⟩ | hge
  · intro hEq
    apply hnever e he
    rw [heid, ← hid, hEq]
  · intro hEq
    have hlt := hfresh r hr
    omega

/-- Counterexample inputs for C4: a standard owning one revision, and a
payload supplying that revision id twice with different fields. -/
def c4Std : Standard :=
  { id := 10, name := "IEC 60601",
    revisions := [⟨1, 10, "Rev A", "2020-01-01", "Initial release"⟩] }

/-- First duplicate-id payload entry. -/
def c4Dup1 : RevisionPayload := ⟨some 1, "Rev X", "2021-01-01", "First edit"⟩

/-- Second duplicate-id payload entry. -/
def c4Dup2 : RevisionPayload := ⟨some 1, "Rev Y", "2022-02-02", "Second edit"⟩

/-- C4 counterexample to the claim as stated: when the same existing id is
supplied twice, the in-place mutation aliases both result entries to the
same row object, so the committed collection does not equal the supplied
list — the entry supplying `Rev X` comes back as `Rev Y`. -/
theorem update_standard_revisions_counterexample :
    ((update_standard_revisions c4Std [c4Dup1, c4Dup2] 5).1.revisions.map
        (fun r => r.revision_number)) = ["Rev Y", "Rev Y"] ∧
    [c4Dup1, c4Dup2].map (fun e => e.revision_number) = ["Rev X", "Rev Y"] ∧
    ((update_standard_revisions c4Std [c4Dup1, c4Dup2] 5).1.revisions.map
        (fun r => r.revision_number)) ≠
      [c4Dup1, c4Dup2].map (fun e => e.revision_number) := by
  refine ⟨rfl, rfl, ?_⟩
  decide

/-- Witness inputs for C4: a standard owning two revisions. -/
def c4WStd : Standard :=
  { id := 20, name := "ISO 13485",
    revisions := [⟨1, 20, "A", "2019-01-01", "first"⟩,
                  ⟨2, 20, "B", "2019-06-01", "second"⟩] }

/-- Witness payload for C4: update revision 1 in place, add one new entry,
omit revision 2. -/
def c4WPayload : List RevisionPayload :=
  [⟨some 1, "A2", "2020-01-01", "amended"⟩,
   ⟨none, "C", "2021-01-01", "brand new"⟩]

/-- C4 witness: a concrete reconciliation — revision 1 updated in place,
revision 2 dropped, one fresh insert — equals the spec-side collection, and
the omitted revision id 2 is gone. -/
theorem update_standard_revisions_replaces_collection_witness :
    (update_standard_revisions c4WStd c4WPayload 3).1.revisions =
      reconciledSpec c4WStd c4WPayload 3 ∧
    ∀ r ∈ c4WStd.revisions,
      (∀ e ∈ c4WPayload, e.id ≠ some r.id) →
      ∀ r' ∈ (update_standard_revisions c4WStd c4WPayload 3).1.revisions,
        r'.id ≠ r.id :=
  update_standard_revisions_replaces_collection c4WStd c4WPayload 3
    (by decide) (by decide)

/-! ## C5 — the prompt embeds the catalog, paginated to 100 rows -/

/-- The name/description/regions projection is blind to the presigned-URL
substitution `get_all_standards` applies to truthy file paths. -/
theorem projRecord_presignFix (presign : String → String) (s : Standard) :
    projRecord (match s.file_path with
      | some p =>
        if p.isEmpty then s else { s with file_path := some (presign p) }
      | none => s) = projRecord s := by
  cases hfp : s.file_path with
  | none => rfl
  | some p =>
    dsimp only
    by_cases hemp : p.isEmpty = true
    · rw [if_pos hemp]
    · rw [if_neg hemp]
      rfl

/-- C5 (amended: the mapping call loads the catalog through
`get_all_standards` with its **default pagination** — skip 0, limit 100 —
so the claim holds for catalogs of at most 100 rows; the counterexample
shows a 101-row catalog loses its last row): for such a catalog the payload
built by `map_project_standard` is exactly the whole stored catalog
projected row by row to name/description/regions — no chunking and no
retrieval filtering — so in particular every stored standard's projected
record appears in it, and the prompt embeds the rendered payload verbatim
(both times it is interpolated). -/
theorem prompt_embeds_catalog (presign : String → String)
    (stdStore : StdStore) (hlen : stdStore.length ≤ 100) :
    promptCatalog presign stdStore = stdStore.map projRecord ∧
    (∀ std ∈ stdStore, projRecord std ∈ promptCatalog presign stdStore) ∧
    (∀ project : ProjectModel, ∃ pre post,
      mapPromptFor presign stdStore project =
        pre ++ (pyReprStdPromptRecords (promptCatalog presign stdStore) ++ post)) := by
  have hEq : promptCatalog presign stdStore = stdStore.map projRecord := by
    unfold promptCatalog get_all_standards
    dsimp only
    rw [List.drop_zero, List.take_of_length_le hlen, List.map_map]
    refine List.map_congr_left ?_
    intro std _
    exact projRecord_presignFix presign std
  refine ⟨hEq, ?_, ?_⟩
  · intro std hmem
    rw [hEq]
    exact List.mem_map_of_mem projRecord hmem
  · intro project
    exact ⟨mapPromptPrefix project,
      mapPromptMiddle ++
        (pyReprStdPromptRecords (promptCatalog presign stdStore) ++
          mapPromptSuffix), rfl⟩

/-- A distinct dummy standard per index, for the C5 counterexample. -/
def mkStd (i : Nat) : Standard := { id := i, name := toString i }

/-- A 101-row catalog. -/
def c5Catalog : StdStore := (List.range 101).map mkStd

set_option maxRecDepth 4000 in
/-- C5 counterexample to the claim as stated: the 101st stored standard does
not appear in the catalog payload the prompt embeds — the mapping call
truncates the catalog at the default page size of 100. -/
theorem prompt_embeds_catalog_counterexample :
    mkStd 100 ∈ c5Catalog ∧
    projRecord (mkStd 100) ∉ promptCatalog id c5Catalog := by
  decide

/-- Witness catalog for C5: two standards, well under the page size. -/
def c5SmallCatalog : StdStore :=
  [{ id := 1, name := "IEC 62368-1", regions := some ["eu"] },
   { id := 2, name := "FCC Part 15", regions := some ["americas"] }]

/-- C5 witness: in a two-row catalog, the embedded payload is exactly the
projected catalog and every row's projection appears in it. -/
theorem prompt_embeds_catalog_witness :
    promptCatalog id c5SmallCatalog = c5SmallCatalog.map projRecord ∧
    (∀ std ∈ c5SmallCatalog, projRecord std ∈ promptCatalog id c5SmallCatalog) ∧
    (∀ project : ProjectModel, ∃ pre post,
      mapPromptFor id c5SmallCatalog project =
        pre ++ (pyReprStdPromptRecords (promptCatalog id c5SmallCatalog) ++ post)) :=
  prompt_embeds_catalog id c5SmallCatalog (by decide)

/-! ## C2 — bulk upload aborts the whole batch on one failure -/

/-- First bulk-upload file; its storage upload will raise. -/
def c2File1 : FileUpload := ⟨"IEC 61000-4-2.pdf"⟩

/-- Second bulk-upload file; it would process successfully. -/
def c2File2 : FileUpload := ⟨"ISO 9001.pdf"⟩

/-- Storage adapter outcome: the first file's upload raises, any other
upload succeeds. -/
def c2Upload : FileUpload → Except String String := fun f =>
  if f.filename = "IEC 61000-4-2.pdf" then
    Except.error "Failed to upload file to DigitalOcean: connection reset"
  else
    Except.ok
      ("https://nyc3.digitaloceanspaces.com/standards-storage/standards/" ++
        f.filename)

/-- Inference adapter outcome: a well-formed payload for any prompt. -/
def c2Oai : String → Except String String := fun _ =>
  Except.ok
    "\x7b\"name\": \"ISO 9001\", \"issueDate\": null, \"effectiveDate\": null\x7d"

/-- C2, evaluating the code at the failing input: with two files whose first
fails at the storage upload, the bulk-upload route re-raises (`raise e`
precedes the dead error-entry append), so the batch aborts — no per-file
report, no row persisted for the second file, no cache invalidation — even
though the second file on its own processes to a committed pending row with
a success entry. -/
theorem bulk_upload_aborts_batch_on_first_failure :
    bulk_upload_standard_files c2Upload c2Oai [c2File1, c2File2] 1 1 [] =
      (Except.error (RouteError.unhandled
        "Failed to upload file to DigitalOcean: connection reset"), [], []) ∧
    bulk_upload_standard_files c2Upload c2Oai [c2File2] 1 1 [] =
      (Except.ok
        { total_processed := 1, successful := 1, failed := 0,
          results := [{ id := some 1, file_name := "ISO 9001.pdf",
                        status := "success", error := none }] },
       [{ id := 1, name := "ISO 9001",
          file_path := some
            "https://nyc3.digitaloceanspaces.com/standards-storage/standards/ISO 9001.pdf",
          approval_status := "pending" }],
       [CacheEvent.listInvalidate]) :=
  ⟨rfl, rfl⟩

end Pliro
